import Mathlib

/-!
asfermi: a shallow embedding of the rule model and the error reporter

Sources embedded here:

* `trunk/DataTypes.h`: `Instruction`, `Directive`, `ModifierRule`, `ModifierGroup`,
  `OperandRule`, `InstructionRule`, `Label`, `LabelRequest`;
* `trunk/helperException.h`: `hpExceptionHandler`, `hpErrorHandler`;
* `trunk/RulesOperand/RulesOperandOthers.h`: `OperandRule32I`, `OperandRuleLOP`,
  `OperandRuleF2I`;
* `trunk/RulesInstruction/RulesInstructionExecution.h`: `IREXIT`, `IRCAL`, `IRBRA`,
  `IRPRET`, `IRRET`;
* `branches/libasfermi/tests/uberkern/test2.cpp`: the arrays `kernel1`, `kernel2`.

Conventions. `unsigned int` is a `Nat` reduced modulo `2 ^ 32` wherever the C++
code computes a new value; `int` is an `Int`. A `SubString` is a view into the
source buffer `csSource`; a C++ reference parameter is returned back in the
result; a C++ `throw e` is the field `thrown := some e` of the result, next to
the state at the moment of the throw (the exception does not undo writes).
-/

namespace Asfermi

/-! ## Spans -/

/-- Modelled from the spec: the span type `SubString` is declared in
`SubString.h`, which is not among the sources; the sources use its members
`Start` and `Length`. `Start` is the position in `csSource` the `char*` points
at, `Length` the `int` length. -/
structure SubString where
  Start : Int
  Length : Int
deriving DecidableEq, Repr

/-- Modelled from the spec: `SubString::operator[]` is declared in `SubString.h`,
which is not among the sources. The span is "a zero-copy view into the source
buffer with position and length", so `component[i]` is the character of the
buffer at `Start + i`; a read outside the buffer is given the terminator NUL. -/
def SubString.get (src : List Char) (s : SubString) (i : Int) : Char :=
  if 0 ≤ s.Start + i then src.getD (s.Start + i).toNat (Char.ofNat 0) else Char.ofNat 0

/-- The characters a span covers: `Length` characters of the buffer from `Start`. -/
def SubString.text (src : List Char) (s : SubString) : List Char :=
  (src.drop s.Start.toNat).take s.Length.toNat

/-- A span lies in the buffer. -/
def SubString.InBuffer (src : List Char) (s : SubString) : Prop :=
  0 ≤ s.Start ∧ 0 ≤ s.Length ∧ s.Start + s.Length ≤ (src.length : Int)

instance (src : List Char) (s : SubString) : Decidable (s.InBuffer src) := by
  unfold SubString.InBuffer; infer_instance

/-! ## `DataTypes.h` -/

/-- The struct `Instruction`. -/
structure Instruction where
  InstructionString : SubString
  LineNumber : Int
  Modifiers : List SubString
  Components : List SubString
  Is8 : Bool
  OpcodeWord0 : Nat
  OpcodeWord1 : Nat
  Offset : Int
  Predicated : Bool
deriving DecidableEq, Repr

/-- The method `Instruction::Reset(instructionString, offset, lineNumber)`. It
has no statement for `Modifiers`. -/
def Instruction.Reset (ins : Instruction) (instructionString : SubString) (offset : Int)
    (lineNumber : Int) : Instruction :=
  { ins with
    InstructionString := instructionString
    Offset := offset
    LineNumber := lineNumber
    Components := []
    Is8 := true
    OpcodeWord0 := 0
    OpcodeWord1 := 0
    Predicated := false }

/-- The struct `Directive`. -/
structure Directive where
  DirectiveString : SubString
  LineNumber : Int
  Parts : List SubString
deriving DecidableEq, Repr

/-- The method `Directive::Reset(directiveString, lineNumber)`. -/
def Directive.Reset (d : Directive) (directiveString : SubString) (lineNumber : Int) :
    Directive :=
  { d with DirectiveString := directiveString, LineNumber := lineNumber, Parts := [] }

/-- The global variables the embedded code reads and writes
(`GlobalVariables.h` is not among the sources; these are the ones named in the
embedded functions), and the lines written to `cout`. -/
structure Globals where
  csSource : List Char
  csCurrentInstruction : Instruction
  csErrorPresent : Bool
  csExceptionPrintUsage : Bool
  cout : List String
deriving DecidableEq, Repr

/-- The outcome of a call that works on the globals: `thrown = none` when it
returned normally, `some e` when it ended by `throw e`. -/
structure Effect where
  thrown : Option Int
  globals : Globals
deriving DecidableEq, Repr

/-- The outcome of `OperandRule::Process(SubString &component)`: as `Effect`,
with the value the reference parameter `component` holds at the end. -/
structure ProcessResult where
  thrown : Option Int
  component : SubString
  globals : Globals
deriving DecidableEq, Repr

/-- The enum `OperandType`. -/
inductive OperandType where
  | Register | Immediate32HexConstant | Predicate
  | Immediate32IntConstant | Immediate32FloatConstant | Immediate32AnyConstant
  | GlobalMemoryWithImmediate32 | ConstantMemory | SharedMemoryWithImmediate20
  | Optional | Custom
  | MOVStyle | FADDStyle | IADDStyle
deriving DecidableEq, Repr

/-- The struct `ModifierRule`. `Name` is the text of the rule's name;
`CustomProcess` is the virtual method `virtual void CustomProcess(){}`, an
encoder that works on the globals. -/
structure ModifierRule where
  Name : String
  Apply0 : Bool
  Mask0 : Nat
  Bits0 : Nat
  Apply1 : Bool
  Mask1 : Nat
  Bits1 : Nat
  NeedCustomProcessing : Bool
  CustomProcess : Globals → Globals

/-- The struct `ModifierGroup`: `ModifierRules` holds `ModifierCount` rules. -/
structure ModifierGroup where
  ModifierRules : List ModifierRule
  Optional : Bool

/-- The field `ModifierCount`. -/
def ModifierGroup.ModifierCount (grp : ModifierGroup) : Nat := grp.ModifierRules.length

/-- The method `ModifierGroup::Initialize(optional, modifierCount, ...)`. -/
def ModifierGroup.Initialize (optional : Bool) (modifierRules : List ModifierRule) :
    ModifierGroup :=
  { ModifierRules := modifierRules, Optional := optional }

/-- The struct `OperandRule`, with its pure virtual method `Process`. -/
structure OperandRule where
  Type_ : OperandType
  Process : SubString → Globals → ProcessResult

/-- The struct `InstructionRule`. -/
structure InstructionRule where
  Name : String
  OperandCount : Nat
  Operands : List OperandRule
  ModifierGroupCount : Nat
  ModifierGroups : List ModifierGroup
  Is8 : Bool
  OpcodeWord0 : Nat
  OpcodeWord1 : Nat
  NeedCustomProcessing : Bool
  CustomProcess : Globals → Effect

/-- The constructor `InstructionRule(name, modifierGroupCount, is8,
needCustomProcessing)`: no operands, `modifierGroupCount` groups not yet
initialised, the opcode words not yet set; `CustomProcess(){}` does nothing. -/
def InstructionRule.new (name : String) (modifierGroupCount : Nat) (is8 : Bool)
    (needCustomProcessing : Bool) : InstructionRule :=
  { Name := name
    OperandCount := 0
    Operands := []
    ModifierGroupCount := modifierGroupCount
    ModifierGroups := List.replicate modifierGroupCount (ModifierGroup.Initialize false [])
    Is8 := is8
    OpcodeWord0 := 0
    OpcodeWord1 := 0
    NeedCustomProcessing := needCustomProcessing
    CustomProcess := fun g => { thrown := none, globals := g } }

/-- The method `InstructionRule::SetOperands(operandCount, ...)`. -/
def InstructionRule.SetOperands (rule : InstructionRule) (operands : List OperandRule) :
    InstructionRule :=
  { rule with OperandCount := operands.length, Operands := operands }

/-- The statement `ModifierGroups[i].Initialize(optional, count, ...)` in a rule's
constructor. -/
def InstructionRule.InitializeGroup (rule : InstructionRule) (i : Nat) (optional : Bool)
    (modifierRules : List ModifierRule) : InstructionRule :=
  { rule with ModifierGroups := rule.ModifierGroups.set i (ModifierGroup.Initialize optional modifierRules) }

/-- Modelled from the spec: `BinaryStringToOpcode4` is not among the sources.
Character `i` of the binary string is bit `i` of the word. -/
def BinaryStringToOpcode4 (s : List Char) : Nat :=
  (List.range 32).foldl (fun w i => if s.getD i '0' = '1' then w ||| (1 <<< i) else w) 0

/-- Modelled from the spec: `InstructionRule::BinaryStringToOpcode8` is called by
the rules of `RulesInstructionExecution.h` and is not among the sources.
Character `i` of the 64-character string is bit `i` of the 64-bit opcode; the
first word is bits 0..31, the second bits 32..63. -/
def BinaryStringToOpcode8 (s : String) : Nat × Nat :=
  (BinaryStringToOpcode4 (s.toList.take 32), BinaryStringToOpcode4 (s.toList.drop 32))

/-- The statement `BinaryStringToOpcode8(s, OpcodeWord0, OpcodeWord1)` in a rule's
constructor. -/
def InstructionRule.SetOpcode8 (rule : InstructionRule) (s : String) : InstructionRule :=
  { rule with OpcodeWord0 := (BinaryStringToOpcode8 s).1, OpcodeWord1 := (BinaryStringToOpcode8 s).2 }

/-! ## `RulesInstructionExecution.h` -/

/-- The rule `IREXIT`. -/
def IREXIT : InstructionRule :=
  (InstructionRule.new "EXIT" 0 true false).SetOpcode8
    "1110011110111000000000000000000000000000000000000000000000000001"

/-- The rule `IRCAL`; the operand rule `OPRImmediate24HexConstant` and the
modifier rule `MRCALNOINC` are declared outside the sources and are taken as
parameters. -/
def IRCAL (OPRImmediate24HexConstant : OperandRule) (MRCALNOINC : ModifierRule) :
    InstructionRule :=
  (((InstructionRule.new "CAL" 1 true false).SetOpcode8
    "1110000000000000100000000000000000000000000000000000000000001010").SetOperands
    [OPRImmediate24HexConstant]).InitializeGroup 0 true [MRCALNOINC]

/-- The rule `IRBRA`; `OPRImmediate24HexConstant` and `MRBRAU` are parameters. -/
def IRBRA (OPRImmediate24HexConstant : OperandRule) (MRBRAU : ModifierRule) :
    InstructionRule :=
  (((InstructionRule.new "BRA" 1 true false).SetOpcode8
    "1110011110111000000000000000000000000000000000000000000000000010").SetOperands
    [OPRImmediate24HexConstant]).InitializeGroup 0 true [MRBRAU]

/-- The rule `IRPRET`; `OPRImmediate24HexConstant` and `MRCALNOINC` are
parameters. -/
def IRPRET (OPRImmediate24HexConstant : OperandRule) (MRCALNOINC : ModifierRule) :
    InstructionRule :=
  (((InstructionRule.new "PRET" 1 true false).SetOpcode8
    "1110000000000001000000000000000000000000000000000000000000011110").SetOperands
    [OPRImmediate24HexConstant]).InitializeGroup 0 true [MRCALNOINC]

/-- The rule `IRRET`. -/
def IRRET : InstructionRule :=
  (InstructionRule.new "RET" 0 true false).SetOpcode8
    "1110011110111000000000000000000000000000000000000000000000001001"

/-- The array `kernel1` of `test2.cpp`. -/
def kernel1 : List Nat :=
  [0x80009de4, 0x28004000,
   0x9000dde4, 0x28004000,
   0x50001de2, 0x18000000,
   0x00201c85, 0x94000000,
   0x00001de7, 0x80000000]

/-- The array `kernel2` of `test2.cpp`. -/
def kernel2 : List Nat :=
  [0x00005de4, 0x28004404,
   0x80009de4, 0x28004000,
   0x9000dde4, 0x28004000,
   0x4c001de2, 0x18000000,
   0x00201c85, 0x94000000,
   0x00001de7, 0x80000000]

/-! ## `helperException.h` -/

/-- The `switch` of `hpErrorHandler`: the message of error code `e`. -/
def hpErrorHandler.message (e : Int) : String :=
  if e = 100 then "Instruction name is absent following the predicate"
  else if e = 101 then "Unsupported modifier."
  else if e = 102 then "Too many operands."
  else if e = 103 then "Insufficient number of operands."
  else if e = 104 then "Incorrect register format."
  else if e = 105 then "Register number too large."
  else if e = 106 then "Incorrect hex value."
  else if e = 107 then "Incorrect global memory format."
  else if e = 108 then "Instruction not supported."
  else if e = 109 then "Incorrect predicate."
  else if e = 110 then "Incorrect constant memory format."
  else if e = 111 then "Memory address for constant memory too large."
  else if e = 112 then "Register cannot be used in MOV-style constant address."
  else if e = 113 then "The immediate value is limited to 16-bit."
  else if e = 114 then "Constant memory bank number too large."
  else if e = 115 then "Immediate value is limited to 20-bit."
  else "Unknown Error"

/-- Modelled from the spec: `SubString::ToCharArrayStopOnCR` is declared in
`SubString.h`, which is not among the sources. The "reconstructed source text"
of the line: the characters of the span up to the first carriage return. -/
def SubString.ToCharArrayStopOnCR (src : List Char) (s : SubString) : String :=
  String.mk ((s.text src).takeWhile (fun c => c != Char.ofNat 13))

/-- The function `hpErrorHandler(int e, Instruction &instruction)`: sets
`csErrorPresent`, then writes one line to `cout`. -/
def hpErrorHandler (e : Int) (instruction : Instruction) (g : Globals) : Globals :=
  let g1 := { g with csErrorPresent := true }
  let message := hpErrorHandler.message e
  let line := instruction.InstructionString.ToCharArrayStopOnCR g1.csSource
  { g1 with cout := g1.cout ++
      ["Line " ++ toString instruction.LineNumber ++ ": " ++ line ++ ": " ++ message] }

/-- The `switch` of `hpExceptionHandler`: the message of exception code `e`. -/
def hpExceptionHandler.message (e : Int) : String :=
  if e = 0 then "Invalid arguments."
  else if e = 1 then "Unable to open input file"
  else if e = 3 then "Incorrect kernel offset."
  else if e = 4 then "Cannot open output file"
  else if e = 5 then "Cannot find specified kernel"
  else if e = 6 then "File to be modified is invalid."
  else if e = 7 then "Failed to read cubin"
  else if e = 8 then "Cannot find the specified section"
  else if e = 9 then "Specific section not large enough to contain all the assembled opcodes."
  else if e = 20 then "Insufficient number of arguments"
  else if e = 50 then "Initialization error. Repeating instruction indices."
  else if e = 99 then "Not in replace mode."
  else "No error message"

/-- Modelled from the spec: `hpUsage` is declared `extern` in
`helperException.h` and is not among the sources. It writes the "usage text"
(section 1) to `cout`; the lines of that text are the parameter `usage`. -/
def hpUsage (usage : List String) (g : Globals) : Globals :=
  { g with cout := g.cout ++ usage }

/-- The function `hpExceptionHandler(int e)`: writes the message to `cout`, then
calls `hpUsage()` when `csExceptionPrintUsage` is set. -/
def hpExceptionHandler (usage : List String) (e : Int) (g : Globals) : Globals :=
  let g1 := { g with cout := g.cout ++ [hpExceptionHandler.message e] }
  if g1.csExceptionPrintUsage then hpUsage usage g1 else g1

/-- The codes with a `case` in `hpExceptionHandler`. -/
def hpExceptionHandler.codes : List Int := [0, 1, 3, 4, 5, 6, 7, 8, 9, 20, 50, 99]

/-! ## `RulesOperandOthers.h` -/

/-- What the operand rules of `RulesOperandOthers.h` call and the sources do not
contain: the literal conversions of `SubString`, which read the span's text in
the buffer and return an `unsigned int` or throw; `WriteToImmediate32`; and the
four operand rules the prefix rules delegate to. -/
structure Externals where
  ToImmediate32FromFloatConstant : List Char → SubString → Except Int Nat
  ToImmediate32FromHexConstant : Bool → List Char → SubString → Except Int Nat
  ToImmediate32FromIntConstant : List Char → SubString → Except Int Nat
  WriteToImmediate32 : Nat → Globals → Effect
  OPRMOVStyle : OperandRule
  OPRRegister1 : OperandRule
  OPRFMULStyle : OperandRule
  OPRIMULStyle : OperandRule

/-- The tail of `OperandRule32I::Process` from the label `write` on, entered
with the outcome of the conversion that computed `result`: a conversion that
threw ends the call, otherwise `WriteToImmediate32(result)` runs. -/
def OperandRule32I.write (ext : Externals) (component : SubString) (g : Globals)
    (result : Except Int Nat) : ProcessResult :=
  match result with
  | .error e => { thrown := some e, component := component, globals := g }
  | .ok result =>
    let w := ext.WriteToImmediate32 result g
    { thrown := w.thrown, component := component, globals := w.globals }

/-- The method `OperandRule32I::Process`. -/
def OperandRule32I.Process (ext : Externals) (component : SubString) (g : Globals) :
    ProcessResult :=
  if component.get g.csSource 0 = 'F' then
    OperandRule32I.write ext component g (ext.ToImmediate32FromFloatConstant g.csSource component)
  else
    let startPos : Int := if component.get g.csSource 0 = '-' then 1 else 0
    if component.Length - startPos > 2 ∧ component.get g.csSource startPos = '0' ∧
        (component.get g.csSource (startPos + 1) = 'x' ∨
         component.get g.csSource (startPos + 1) = 'X') then
      OperandRule32I.write ext component g
        (ext.ToImmediate32FromHexConstant true g.csSource component)
    else
      OperandRule32I.write ext component g (ext.ToImmediate32FromIntConstant g.csSource component)

/-- The rule `OPR32I`. -/
def OPR32I (ext : Externals) : OperandRule :=
  { Type_ := OperandType.Custom, Process := OperandRule32I.Process ext }

/-- The statements `component.Start++; component.Length--;`. -/
def SubString.stripFirst (s : SubString) : SubString :=
  { Start := s.Start + 1, Length := s.Length - 1 }

/-- The statements `component.Start--; component.Length++;`. -/
def SubString.unstripFirst (s : SubString) : SubString :=
  { Start := s.Start - 1, Length := s.Length + 1 }

/-- The statement `csCurrentInstruction.OpcodeWord0 |= 1<<shift;` on the
`unsigned int` word. -/
def Globals.orWord0 (g : Globals) (shift : Nat) : Globals :=
  { g with csCurrentInstruction :=
      { g.csCurrentInstruction with
        OpcodeWord0 := (g.csCurrentInstruction.OpcodeWord0 ||| (1 <<< shift)) % 2 ^ 32 } }

/-- The statement `if(ModShift==8) OPRMOVStyle.Process(component); else
OPRRegister1.Process(component);` of `OperandRuleLOP::Process`. -/
def OperandRuleLOP.delegate (ext : Externals) (ModShift : Nat) (component : SubString)
    (g : Globals) : ProcessResult :=
  if ModShift = 8 then ext.OPRMOVStyle.Process component g
  else ext.OPRRegister1.Process component g

/-- The method `OperandRuleLOP::Process` of a rule built with `ModShift`. `1<<ModShift`
is the `int` the C++ computes for `ModShift` below 31 (the rules are built with
9 and 8). -/
def OperandRuleLOP.Process (ext : Externals) (ModShift : Nat) (component : SubString)
    (g : Globals) : ProcessResult :=
  let not : Bool := decide (component.get g.csSource 0 = '~')
  let component := if not then component.stripFirst else component
  if component.Length < 1 then
    { thrown := some 132, component := component, globals := g }
  else
    let r := OperandRuleLOP.delegate ext ModShift component g
    match r.thrown with
    | some _ => r
    | none =>
      if not then
        { thrown := none, component := r.component.unstripFirst,
          globals := r.globals.orWord0 ModShift }
      else r

/-- The value of `component` in `OperandRuleLOP::Process` after its first `if`
statement: the span without its first character when `component[0]` is `~`,
the span itself otherwise. -/
def OperandRuleLOP.stripped (src : List Char) (component : SubString) : SubString :=
  if component.get src 0 = '~' then component.stripFirst else component

/-- The rule `OPRLOP1(9)`. -/
def OPRLOP1 (ext : Externals) : OperandRule :=
  { Type_ := OperandType.Custom, Process := OperandRuleLOP.Process ext 9 }

/-- The rule `OPRLOP2(8)`. -/
def OPRLOP2 (ext : Externals) : OperandRule :=
  { Type_ := OperandType.Custom, Process := OperandRuleLOP.Process ext 8 }

/-- The state `OperandRuleF2I::Process` hands to the delegated rule: the globals
after the `if`/`else if` on `component[0]`. -/
def OperandRuleF2I.prefixGlobals (component : SubString) (g : Globals) : Globals :=
  if component.get g.csSource 0 = '-' then g.orWord0 8
  else if component.get g.csSource 0 = '|' then g.orWord0 6
  else g

/-- The statement `if(F2I) OPRFMULStyle.Process(component); else
OPRIMULStyle.Process(component);` of `OperandRuleF2I::Process`. -/
def OperandRuleF2I.delegate (ext : Externals) (F2I : Bool) (component : SubString)
    (g : Globals) : ProcessResult :=
  if F2I then ext.OPRFMULStyle.Process component g
  else ext.OPRIMULStyle.Process component g

/-- The method `OperandRuleF2I::Process` of a rule built with `F2I`. -/
def OperandRuleF2I.Process (ext : Externals) (F2I : Bool) (component : SubString)
    (g : Globals) : ProcessResult :=
  let operated : Bool :=
    decide (component.get g.csSource 0 = '-') || decide (component.get g.csSource 0 = '|')
  let g1 := OperandRuleF2I.prefixGlobals component g
  let component := if operated then component.stripFirst else component
  let r := OperandRuleF2I.delegate ext F2I component g1
  match r.thrown with
  | some _ => r
  | none => if operated then { r with component := r.component.unstripFirst } else r

/-- The rule `OPRF2I(true)`. -/
def OPRF2I (ext : Externals) : OperandRule :=
  { Type_ := OperandType.Custom, Process := OperandRuleF2I.Process ext true }

/-- The rule `OPRI2F(false)`. -/
def OPRI2F (ext : Externals) : OperandRule :=
  { Type_ := OperandType.Custom, Process := OperandRuleF2I.Process ext false }

/-! ## The encoding pipeline

The functions that run the rules (the instruction parser and its helpers) are
not among the sources; they are modelled from the specification's sections 3,
4.2, 4.3 and 4.4. -/

/-- Modelled from the spec: no function of the sources computes the edit; it is
the one documented on the fields of `ModifierRule` (`Mask0`: "Does an AND
operation with opcode first", `Bits0`: "then an OR operation") and in the data
model: `word = (word & mask) | bits` on an `unsigned int`. -/
def maskThenOr (word mask bits : Nat) : Nat :=
  ((word &&& mask) ||| bits) % 2 ^ 32

/-- Modelled from the spec: the function that applies a modifier rule is not
among the sources. The rule's edit of the two opcode words: `(word & mask) |
bits` on word0 when `Apply0` ("apply on OpcodeWord0?"), and on word1 when the
instruction has a second word (`is8`) and `Apply1`. -/
def ModifierRule.edit (rule : ModifierRule) (is8 : Bool) (words : Nat × Nat) : Nat × Nat :=
  (if rule.Apply0 then maskThenOr words.1 rule.Mask0 rule.Bits0 else words.1,
   if is8 && rule.Apply1 then maskThenOr words.2 rule.Mask1 rule.Bits1 else words.2)

/-- Modelled from the spec: applying one modifier rule to the current
instruction (section 4.2): a rule "marked as requiring custom processing bypasses
the generic mask/OR step and instead runs an arbitrary encoder supplied by that
rule"; any other rule edits the opcode words by `ModifierRule.edit`. -/
def hpApplyModifier (rule : ModifierRule) (g : Globals) : Effect :=
  if rule.NeedCustomProcessing then { thrown := none, globals := rule.CustomProcess g }
  else
    let ins := g.csCurrentInstruction
    let words := rule.edit ins.Is8 (ins.OpcodeWord0, ins.OpcodeWord1)
    { thrown := none
      globals := { g with csCurrentInstruction :=
        { ins with OpcodeWord0 := words.1, OpcodeWord1 := words.2 } } }

/-- The rule of a group that carries the name `name`, if there is one. -/
def ModifierGroup.find (grp : ModifierGroup) (name : String) : Option ModifierRule :=
  grp.ModifierRules.find? (fun rule => decide (rule.Name = name))

/-- Modelled from the spec: the modifier engine (section 4.2), which is not among
the sources. "Walk the rule's groups in order; for each group, if the next
unconsumed source modifier matches one of the group's rule names, apply that
rule's edits, then advance to the next source modifier; if the group is not
optional and no source modifier matches, fail with unsupported modifier; if a
modifier remains unconsumed after all groups are exhausted, fail the same way."
The unsupported-modifier error is code 101 of `hpErrorHandler`. -/
def ModifierEngine : List ModifierGroup → List String → Globals → Effect
  | [], [], g => { thrown := none, globals := g }
  | [], _ :: _, g => { thrown := some 101, globals := g }
  | grp :: groups, [], g =>
    if grp.Optional then ModifierEngine groups [] g
    else { thrown := some 101, globals := g }
  | grp :: groups, m :: ms, g =>
    match grp.find m with
    | some rule =>
      let applied := hpApplyModifier rule g
      match applied.thrown with
      | some e => { thrown := some e, globals := applied.globals }
      | none => ModifierEngine groups ms applied.globals
    | none =>
      if grp.Optional then ModifierEngine groups (m :: ms) g
      else { thrown := some 101, globals := g }

/-- The acceptance condition in the words of the data model (section 3):
"modifiers in the source must appear in group order, at most one modifier per
group, skipping any group marked optional". The list can be consumed by walking
the groups in order, each group consuming at most one modifier whose name is in
that group, a non-optional group consuming exactly one, with no modifier left
over. -/
def acceptsInGroupOrder : List ModifierGroup → List String → Bool
  | [], ms => ms.isEmpty
  | grp :: groups, [] => grp.Optional && acceptsInGroupOrder groups []
  | grp :: groups, m :: ms =>
    (grp.Optional && acceptsInGroupOrder groups (m :: ms)) ||
    ((grp.find m).isSome && acceptsInGroupOrder groups ms)

/-- The acceptance condition as a walk over the groups, in the words of the
engine's contract: walk the rule's groups in order; a group whose names include
the next modifier consumes it (one modifier at most per group); a group that
consumes none must be optional; no modifier may be left over. -/
def consumedByWalk : List ModifierGroup → List String → Bool
  | [], ms => ms.isEmpty
  | grp :: groups, [] => grp.Optional && consumedByWalk groups []
  | grp :: groups, m :: ms =>
    if (grp.find m).isSome then consumedByWalk groups ms
    else grp.Optional && consumedByWalk groups (m :: ms)

/-- Applying any modifier rule of the groups returns normally. -/
def appliesWithoutError (groups : List ModifierGroup) : Prop :=
  ∀ grp ∈ groups, ∀ rule ∈ grp.ModifierRules, ∀ g : Globals,
    (hpApplyModifier rule g).thrown = none

/-- Modelled from the spec: the operand engine (section 4.3), which is not among
the sources: the operand rules run on the operand components "matched
positionally", the first at position `i` of `Components`; each `Process` works
on its component by reference, and an error ends the instruction. -/
def OperandEngine : List OperandRule → List SubString → Nat → Globals → Effect
  | rule :: rules, component :: components, i, g =>
    let r := rule.Process component g
    let g1 := { r.globals with csCurrentInstruction :=
      { r.globals.csCurrentInstruction with
        Components := r.globals.csCurrentInstruction.Components.set i r.component } }
    match r.thrown with
    | some e => { thrown := some e, globals := g1 }
    | none => OperandEngine rules components (i + 1) g1
  | _, _, _, g => { thrown := none, globals := g }

/-- The text of the instruction's modifier tokens. -/
def Globals.modifierNames (g : Globals) : List String :=
  g.csCurrentInstruction.Modifiers.map (fun m => String.mk (m.text g.csSource))

/-- Modelled from the spec: encoding the current instruction with its resolved
rule (section 4.4, steps 4 and 5), which is not among the sources. The
components are the optional predicate, the mnemonic, then the operands. A
"mismatch in operand count vs the resolved rule's expected count is an error"
(codes 102 and 103 of `hpErrorHandler`) "before any operand is processed"; then
"initialize the instruction's base opcode word(s) from the rule, apply
predicate encoding if present, run the Modifier Engine, then the Operand Engine
in operand order"; a rule that needs custom processing runs its own encoder
instead of the two engines. The predicate encoder is a parameter. -/
def encodeInstruction (encodePredicate : SubString → Globals → Effect)
    (rule : InstructionRule) (g : Globals) : Effect :=
  let ins := g.csCurrentInstruction
  let first := if ins.Predicated then 2 else 1
  let operands := ins.Components.drop first
  if operands.length > rule.OperandCount then { thrown := some 102, globals := g }
  else if operands.length < rule.OperandCount then { thrown := some 103, globals := g }
  else
    let g1 := { g with csCurrentInstruction :=
      { ins with Is8 := rule.Is8, OpcodeWord0 := rule.OpcodeWord0,
                 OpcodeWord1 := rule.OpcodeWord1 } }
    let p : Effect :=
      match ins.Predicated, ins.Components with
      | true, predicate :: _ => encodePredicate predicate g1
      | _, _ => { thrown := none, globals := g1 }
    match p.thrown with
    | some e => { thrown := some e, globals := p.globals }
    | none =>
      if rule.NeedCustomProcessing then rule.CustomProcess p.globals
      else
        let m := ModifierEngine rule.ModifierGroups p.globals.modifierNames p.globals
        match m.thrown with
        | some e => { thrown := some e, globals := m.globals }
        | none => OperandEngine rule.Operands operands first m.globals

/-! ## The classification of immediate literals, in the words of the claim -/

/-- The three ways `OperandRule32I` converts an immediate literal. -/
inductive ImmediateKind where
  | float | hex | decimal
deriving DecidableEq, Repr

/-- The classification of an immediate literal as the specification words it, on
the literal's text: float iff the first character is `F`; otherwise hex iff,
after skipping at most one leading `-`, more than two characters remain and the
first two of them are `0` followed by `x` or `X`; otherwise decimal. -/
def classifyImmediate (text : List Char) : ImmediateKind :=
  if text[0]? = some 'F' then ImmediateKind.float
  else
    let rest := if text[0]? = some '-' then text.drop 1 else text
    if 2 < rest.length ∧ rest[0]? = some '0' ∧ (rest[1]? = some 'x' ∨ rest[1]? = some 'X') then
      ImmediateKind.hex
    else ImmediateKind.decimal

/-- The conversion of `SubString` that belongs to a kind of literal; the hex
conversion is called with the argument `true`. -/
def Externals.convert (ext : Externals) (kind : ImmediateKind) (src : List Char)
    (component : SubString) : Except Int Nat :=
  match kind with
  | ImmediateKind.float => ext.ToImmediate32FromFloatConstant src component
  | ImmediateKind.hex => ext.ToImmediate32FromHexConstant true src component
  | ImmediateKind.decimal => ext.ToImmediate32FromIntConstant src component

/-! ## Labels

The structs `Label` and `LabelRequest` are in `DataTypes.h`; the code that fills
the label table and resolves the requests is not among the sources and is
modelled from the specification's sections 4.3, 4.4 and 4.5. -/

/-- The struct `Label`. -/
structure Label where
  Name : String
  Offset : Int
deriving DecidableEq, Repr

/-- The struct `LabelRequest`. `RelatedInstruction`, an `Instruction*`, is the
position of the instruction in the output instruction sequence. -/
structure LabelRequest where
  RelatedInstruction : Nat
  RequestedLabelName : String
deriving DecidableEq, Repr

/-- Modelled from the spec: a source line as the line parser classifies it
(section 4.4): a label definition `name:`, or an instruction line, given by the
instruction as steps 3 to 5 encode it and, when its operand is symbolic, by the
label name the operand rule could not resolve ("emit a LabelRequest against the
current instruction and leave the immediate field pending zero", section 4.3).
A line `LOOP: EXIT;` is the label definition followed by the instruction. -/
inductive SourceLine where
  | labelDefinition (name : String)
  | instructionLine (encoded : Instruction) (target : Option String)
deriving DecidableEq, Repr

/-- Modelled from the spec: the state of the assembler over the lines of a
source: the byte cursor, the output instruction sequence, the label table, the
pending label requests and the flag of a recorded per-line error. -/
structure Assembly where
  cursor : Int
  instructions : List Instruction
  labels : List Label
  requests : List LabelRequest
  csErrorPresent : Bool
deriving DecidableEq, Repr

/-- The assembler before the first line. -/
def Assembly.start : Assembly :=
  { cursor := 0, instructions := [], labels := [], requests := [], csErrorPresent := false }

/-- The label of the table with the name `name`, if there is one. -/
def findLabel (labels : List Label) (name : String) : Option Label :=
  labels.find? (fun l => decide (l.Name = name))

/-- Modelled from the spec: one line of the parsing pass (section 4.4, steps 2
and 6). A label definition records "Label{name, offset = current byte cursor}",
and is an error "if name already defined". An instruction gets its "byte offset
from a monotonically increasing cursor advanced by 4 or 8 bytes per instruction
(depending on Is8)" and is appended to the output sequence; a symbolic operand
leaves a request against it. -/
def parseLine (a : Assembly) : SourceLine → Assembly
  | SourceLine.labelDefinition name =>
    match findLabel a.labels name with
    | some _ => { a with csErrorPresent := true }
    | none => { a with labels := a.labels ++ [{ Name := name, Offset := a.cursor }] }
  | SourceLine.instructionLine encoded target =>
    { a with
      cursor := a.cursor + (if encoded.Is8 then 8 else 4)
      instructions := a.instructions ++ [{ encoded with Offset := a.cursor }]
      requests :=
        match target with
        | some name =>
          a.requests ++
            [{ RelatedInstruction := a.instructions.length, RequestedLabelName := name }]
        | none => a.requests }

/-- Modelled from the spec: the parsing pass over all lines, in source order. -/
def parseLines (a : Assembly) (lines : List SourceLine) : Assembly :=
  lines.foldl parseLine a

/-- Modelled from the spec: the "previously-reserved immediate bit field" of an
instruction that takes a label (section 4.5). Where the field sits in the opcode
words is not in the sources: writing a value into the field and reading the
field are parameters. -/
structure TargetField where
  write : Nat → Instruction → Instruction
  read : Instruction → Nat

/-- The field holds what is written into it, for the values of a "24-bit branch
target" (section 4.3). -/
def TargetField.Holds (field : TargetField) : Prop :=
  ∀ (v : Nat) (ins : Instruction), v < 2 ^ 24 → field.read (field.write v ins) = v

/-- Modelled from the spec: resolving one request (section 4.5): "look up the
label name; if absent, fail" with a recorded error; "if present, compute the
encoded target value (absolute byte offset)" and "write it into the requesting
instruction's previously-reserved immediate bit field". -/
def resolveRequest (field : TargetField) (a : Assembly) (r : LabelRequest) : Assembly :=
  match findLabel a.labels r.RequestedLabelName, a.instructions[r.RelatedInstruction]? with
  | some l, some ins =>
    { a with
      instructions := a.instructions.set r.RelatedInstruction (field.write l.Offset.toNat ins) }
  | _, _ => { a with csErrorPresent := true }

/-- Modelled from the spec: the label resolver (section 4.5), a "single pass over
the accumulated LabelRequest list" that runs "once after every line has been
parsed". -/
def resolveLabels (field : TargetField) (a : Assembly) : Assembly :=
  a.requests.foldl (resolveRequest field) a

/-- Modelled from the spec: the two passes over a source: parse every line, then
resolve the labels. -/
def assemble (field : TargetField) (lines : List SourceLine) : Assembly :=
  resolveLabels field (parseLines Assembly.start lines)

/-- The bytes a line adds to the instruction stream. -/
def SourceLine.size : SourceLine → Int
  | SourceLine.labelDefinition _ => 0
  | SourceLine.instructionLine encoded _ => if encoded.Is8 then 8 else 4

/-- The bytes of the instruction stream of some lines. -/
def byteSize : List SourceLine → Int
  | [] => 0
  | line :: lines => line.size + byteSize lines

/-- The number of instructions among some lines. -/
def instructionCount : List SourceLine → Nat
  | [] => 0
  | SourceLine.labelDefinition _ :: lines => instructionCount lines
  | SourceLine.instructionLine _ _ :: lines => instructionCount lines + 1

/-- The target field of instruction `i` of the output sequence. -/
def Assembly.target (field : TargetField) (a : Assembly) (i : Nat) : Option Nat :=
  (a.instructions[i]?).map field.read

/-- The assembler before the first line of a source when the label `name` is
already in the table with the offset `offset`: the label is defined before
every reference of the source. -/
def Assembly.knowing (name : String) (offset : Int) : Assembly :=
  { Assembly.start with labels := [{ Name := name, Offset := offset }] }

/-- Two assembler states with the same instruction stream: the same cursor, the
same output sequence and the same pending requests. -/
def Assembly.SameStream (a b : Assembly) : Prop :=
  a.cursor = b.cursor ∧ a.instructions = b.instructions ∧ a.requests = b.requests

/-- The pending requests are consistent with the output sequence: no two of
them are against the same instruction, and each is against an instruction of
the sequence. -/
def Assembly.WellFormed (a : Assembly) : Prop :=
  (a.requests.map (fun r => r.RelatedInstruction)).Nodup ∧
  ∀ r ∈ a.requests, r.RelatedInstruction < a.instructions.length

/-! ## Concrete inputs -/

/-- The line `EXIT;` as the parser hands it to the encoder: the buffer holds
`EXIT;`, the only component is the mnemonic, characters 0 to 3. -/
def exitLine : Globals :=
  { csSource := "EXIT;".toList
    csCurrentInstruction :=
      { InstructionString := { Start := 0, Length := 5 }
        LineNumber := 1
        Modifiers := []
        Components := [{ Start := 0, Length := 4 }]
        Is8 := true
        OpcodeWord0 := 0
        OpcodeWord1 := 0
        Offset := 0
        Predicated := false }
    csErrorPresent := false
    csExceptionPrintUsage := false
    cout := [] }

/-- The globals after a run of calls of `hpErrorHandler`, one per recorded error. -/
def reportAll (calls : List (Int × Instruction)) (g : Globals) : Globals :=
  calls.foldl (fun g call => hpErrorHandler call.1 call.2 g) g

/-- A blank instruction. -/
def blankInstruction : Instruction :=
  { InstructionString := { Start := 0, Length := 0 }
    LineNumber := 1
    Modifiers := []
    Components := []
    Is8 := true
    OpcodeWord0 := 0
    OpcodeWord1 := 0
    Offset := 0
    Predicated := false }

/-- The globals with `text` as the source buffer and a blank current
instruction. -/
def operandBuffer (text : String) : Globals :=
  { csSource := text.toList
    csCurrentInstruction := blankInstruction
    csErrorPresent := false
    csExceptionPrintUsage := false
    cout := [] }

/-- The span that covers the whole of `text` in `operandBuffer text`. -/
def wholeSpan (text : String) : SubString :=
  { Start := 0, Length := text.toList.length }

/-- An operand rule that accepts every operand and changes nothing. -/
def acceptAll : OperandRule :=
  { Type_ := OperandType.Optional
    Process := fun component g => { thrown := none, component := component, globals := g } }

/-- An operand rule that rejects every operand with error 104 and changes
nothing. -/
def rejectAll : OperandRule :=
  { Type_ := OperandType.Register
    Process := fun component g => { thrown := some 104, component := component, globals := g } }

/-- A sample instance of the externals, for concrete inputs: each conversion
returns a fixed value (float 1, hex 2, decimal 3), `WriteToImmediate32` ORs the
value into word0, and every delegated operand rule accepts. -/
def sampleExternals : Externals :=
  { ToImmediate32FromFloatConstant := fun _ _ => Except.ok 1
    ToImmediate32FromHexConstant := fun _ _ _ => Except.ok 2
    ToImmediate32FromIntConstant := fun _ _ => Except.ok 3
    WriteToImmediate32 := fun v g =>
      { thrown := none
        globals := { g with csCurrentInstruction :=
          { g.csCurrentInstruction with
            OpcodeWord0 := (g.csCurrentInstruction.OpcodeWord0 ||| v) % 2 ^ 32 } } }
    OPRMOVStyle := acceptAll
    OPRRegister1 := acceptAll
    OPRFMULStyle := acceptAll
    OPRIMULStyle := acceptAll }

/-- The sample externals with delegated operand rules that all reject. -/
def rejectingExternals : Externals :=
  { sampleExternals with
    OPRMOVStyle := rejectAll
    OPRRegister1 := rejectAll
    OPRFMULStyle := rejectAll
    OPRIMULStyle := rejectAll }

/-- The line `LOP.AND R0, R1, ~;` as reported to `hpErrorHandler`. -/
def lopLine : Instruction :=
  { blankInstruction with
    InstructionString := wholeSpan "LOP.AND R0, R1, ~;"
    LineNumber := 7 }

/-- A modifier rule `U` that sets bit 15 of word0. -/
def sampleU : ModifierRule :=
  { Name := "U"
    Apply0 := true, Mask0 := 0xFFFFFFFF, Bits0 := 0x8000
    Apply1 := false, Mask1 := 0xFFFFFFFF, Bits1 := 0
    NeedCustomProcessing := false
    CustomProcess := fun g => g }

/-- Two groups that share the modifier name `U`: the first optional, the second
required. -/
def sharedNameGroups : List ModifierGroup :=
  [ModifierGroup.Initialize true [sampleU], ModifierGroup.Initialize false [sampleU]]

/-- An operand rule that reports whether bit `shift` of word0 is set when it is
invoked: it throws 1 when the bit is set and 0 when it is not, and changes
nothing. -/
def probeBit (shift : Nat) : OperandRule :=
  { Type_ := OperandType.Custom
    Process := fun component g =>
      { thrown := some (if g.csCurrentInstruction.OpcodeWord0.testBit shift then 1 else 0)
        component := component
        globals := g } }

/-- The sample externals with delegated operand rules that all probe bit
`shift`. -/
def probingExternals (shift : Nat) : Externals :=
  { sampleExternals with
    OPRMOVStyle := probeBit shift
    OPRRegister1 := probeBit shift
    OPRFMULStyle := probeBit shift
    OPRIMULStyle := probeBit shift }

/-- An instruction in the middle of a line: predicate, modifiers, components
and opcode words all set. -/
def usedInstruction : Instruction :=
  { InstructionString := { Start := 3, Length := 20 }
    LineNumber := 4
    Modifiers := [{ Start := 8, Length := 1 }]
    Components := [{ Start := 3, Length := 3 }, { Start := 7, Length := 3 }]
    Is8 := false
    OpcodeWord0 := 0x00009DE7
    OpcodeWord1 := 0x40000000
    Offset := 24
    Predicated := true }

/-- A directive with two parts. -/
def usedDirective : Directive :=
  { DirectiveString := { Start := 0, Length := 12 }
    LineNumber := 2
    Parts := [{ Start := 1, Length := 6 }, { Start := 8, Length := 4 }] }

/-- A sample target field: the low 24 bits of word1, written by the
mask-then-OR edit. -/
def sampleField : TargetField :=
  { write := fun v ins => { ins with OpcodeWord1 := maskThenOr ins.OpcodeWord1 (0xFF <<< 24) v }
    read := fun ins => ins.OpcodeWord1 % 2 ^ 24 }

/-- The instruction `BRA LOOP;` as encoded before the resolution: the base words
of BRA. -/
def braLoop : SourceLine :=
  SourceLine.instructionLine
    { blankInstruction with OpcodeWord0 := 0x00001DE7, OpcodeWord1 := 0x40000000 }
    (some "LOOP")

/-- The instruction `EXIT;` as encoded. -/
def exitInstruction : SourceLine :=
  SourceLine.instructionLine
    { blankInstruction with OpcodeWord0 := 0x00001DE7, OpcodeWord1 := 0x80000000 } none

/-- The source `BRA LOOP;` followed by `LOOP: EXIT;`. -/
def forwardSource : List SourceLine :=
  [braLoop, SourceLine.labelDefinition "LOOP", exitInstruction]

/-- The source `BRA LOOP;` followed by `EXIT;`, without the label statement. -/
def forwardSourceUnlabelled : List SourceLine :=
  [braLoop, exitInstruction]

/-- An operand rule that writes the text of the span it is given to `cout`,
accepts, and changes nothing else. -/
def echoSpan : OperandRule :=
  { Type_ := OperandType.Custom
    Process := fun component g =>
      { thrown := none
        component := component
        globals := { g with cout := g.cout ++ [String.mk (component.text g.csSource)] } } }

/-- The sample externals with delegated operand rules that all echo their
span. -/
def echoingExternals : Externals :=
  { sampleExternals with
    OPRMOVStyle := echoSpan
    OPRRegister1 := echoSpan
    OPRFMULStyle := echoSpan
    OPRIMULStyle := echoSpan }

/-! ## Theorems -/

/-- A rule without operands and without modifier groups, run on an instruction
without predicate, modifiers or operands, leaves its two base opcode words in
the instruction. -/
theorem encodeInstruction_bare (encodePredicate : SubString → Globals → Effect)
    (rule : InstructionRule) (g : Globals) (mnemonic : SubString)
    (hOperands : rule.OperandCount = 0) (hGroups : rule.ModifierGroups = [])
    (hCustom : rule.NeedCustomProcessing = false)
    (hPredicated : g.csCurrentInstruction.Predicated = false)
    (hModifiers : g.csCurrentInstruction.Modifiers = [])
    (hComponents : g.csCurrentInstruction.Components = [mnemonic]) :
    (encodeInstruction encodePredicate rule g).thrown = none ∧
    (encodeInstruction encodePredicate rule g).globals.csCurrentInstruction.OpcodeWord0
      = rule.OpcodeWord0 ∧
    (encodeInstruction encodePredicate rule g).globals.csCurrentInstruction.OpcodeWord1
      = rule.OpcodeWord1 := by
  simp [encodeInstruction, hOperands, hGroups, hCustom, hPredicated, hModifiers, hComponents,
    Globals.modifierNames, ModifierEngine, OperandEngine]

/-- C1: encoding `EXIT;` (no predicate, no modifiers, no operands) yields
OpcodeWord0 = 0x00001DE7 and OpcodeWord1 = 0x80000000. The binary string of the
EXIT rule, with character i as bit i, decodes to exactly these two words; the
rule has zero operands and zero modifier groups, so the pipeline returns
normally with the two base words unchanged in the instruction (as it does for
every rule of that shape); and this pair ends both kernels of the test. -/
theorem C1_exit_encoding :
    BinaryStringToOpcode8 "1110011110111000000000000000000000000000000000000000000000000001"
      = (0x00001DE7, 0x80000000) ∧
    IREXIT.OpcodeWord0 = 0x00001DE7 ∧ IREXIT.OpcodeWord1 = 0x80000000 ∧
    IREXIT.OperandCount = 0 ∧ IREXIT.ModifierGroups.length = 0 ∧
    (∀ (encodePredicate : SubString → Globals → Effect) (g : Globals) (mnemonic : SubString),
      g.csCurrentInstruction.Predicated = false →
      g.csCurrentInstruction.Modifiers = [] →
      g.csCurrentInstruction.Components = [mnemonic] →
      (encodeInstruction encodePredicate IREXIT g).thrown = none ∧
      (encodeInstruction encodePredicate IREXIT g).globals.csCurrentInstruction.OpcodeWord0
        = 0x00001DE7 ∧
      (encodeInstruction encodePredicate IREXIT g).globals.csCurrentInstruction.OpcodeWord1
        = 0x80000000) ∧
    (∀ (encodePredicate : SubString → Globals → Effect) (rule : InstructionRule) (g : Globals)
        (mnemonic : SubString),
      rule.OperandCount = 0 → rule.ModifierGroups = [] → rule.NeedCustomProcessing = false →
      g.csCurrentInstruction.Predicated = false →
      g.csCurrentInstruction.Modifiers = [] →
      g.csCurrentInstruction.Components = [mnemonic] →
      (encodeInstruction encodePredicate rule g).thrown = none ∧
      (encodeInstruction encodePredicate rule g).globals.csCurrentInstruction.OpcodeWord0
        = rule.OpcodeWord0 ∧
      (encodeInstruction encodePredicate rule g).globals.csCurrentInstruction.OpcodeWord1
        = rule.OpcodeWord1) ∧
    kernel1.drop 8 = [0x00001DE7, 0x80000000] ∧
    kernel2.drop 10 = [0x00001DE7, 0x80000000] := by
  have hw : IREXIT.OpcodeWord0 = 0x00001DE7 ∧ IREXIT.OpcodeWord1 = 0x80000000 := by decide
  refine ⟨by decide, hw.1, hw.2, rfl, rfl, ?_, ?_, by decide, by decide⟩
  · intro encodePredicate g mnemonic hP hM hC
    have h := encodeInstruction_bare encodePredicate IREXIT g mnemonic rfl rfl rfl hP hM hC
    rw [hw.1, hw.2] at h
    exact h
  · intro encodePredicate rule g mnemonic hO hG hN hP hM hC
    exact encodeInstruction_bare encodePredicate rule g mnemonic hO hG hN hP hM hC

/-- Witness for C1: the line `EXIT;` encodes to (0x00001DE7, 0x80000000). -/
theorem C1_exit_encoding_witness :
    (encodeInstruction (fun _ g => { thrown := none, globals := g }) IREXIT exitLine).thrown
      = none ∧
    (encodeInstruction (fun _ g => { thrown := none, globals := g }) IREXIT
      exitLine).globals.csCurrentInstruction.OpcodeWord0 = 0x00001DE7 ∧
    (encodeInstruction (fun _ g => { thrown := none, globals := g }) IREXIT
      exitLine).globals.csCurrentInstruction.OpcodeWord1 = 0x80000000 :=
  C1_exit_encoding.2.2.2.2.2.1 (fun _ g => { thrown := none, globals := g }) exitLine
    { Start := 0, Length := 4 } rfl rfl rfl

/-- C2: hpErrorHandler gives every per-line error kind a distinct identity: the
messages of two different codes in 100..115 differ, none of them is the default
"Unknown Error", every integer outside 100..115 is reported as "Unknown Error",
and 101, 102, 103, 104, 105 and 108 have the messages the specification
names. -/
theorem C2_error_messages_distinct :
    (∀ e1 e2 : Int, 100 ≤ e1 → e1 ≤ 115 → 100 ≤ e2 → e2 ≤ 115 → e1 ≠ e2 →
      hpErrorHandler.message e1 ≠ hpErrorHandler.message e2) ∧
    (∀ e : Int, 100 ≤ e → e ≤ 115 → hpErrorHandler.message e ≠ "Unknown Error") ∧
    (∀ e : Int, (e < 100 ∨ 115 < e) → hpErrorHandler.message e = "Unknown Error") ∧
    hpErrorHandler.message 101 = "Unsupported modifier." ∧
    hpErrorHandler.message 102 = "Too many operands." ∧
    hpErrorHandler.message 103 = "Insufficient number of operands." ∧
    hpErrorHandler.message 104 = "Incorrect register format." ∧
    hpErrorHandler.message 105 = "Register number too large." ∧
    hpErrorHandler.message 108 = "Instruction not supported." := by
  refine ⟨?_, ?_, ?_, by decide, by decide, by decide, by decide, by decide, by decide⟩
  · intro e1 e2 h1 h1u h2 h2u hne
    interval_cases e1 <;> interval_cases e2 <;> first | exact absurd rfl hne | decide
  · intro e h hu
    interval_cases e <;> decide
  · intro e h
    unfold hpErrorHandler.message
    repeat (first | rw [if_neg (by omega)] | rfl)

/-- Witness for C2: the codes 104 and 105 have different messages, and the
message of 105 is a dedicated one. -/
theorem C2_error_messages_distinct_witness :
    hpErrorHandler.message 104 ≠ hpErrorHandler.message 105 ∧
    hpErrorHandler.message 105 ≠ "Unknown Error" ∧
    hpErrorHandler.message 99 = "Unknown Error" :=
  ⟨C2_error_messages_distinct.1 104 105 (by decide) (by decide) (by decide) (by decide)
      (by decide),
   C2_error_messages_distinct.2.1 105 (by decide) (by decide),
   C2_error_messages_distinct.2.2.1 99 (Or.inl (by decide))⟩

/-- A run of calls of `hpErrorHandler` never clears the flag. -/
theorem reportAll_keeps_flag (calls : List (Int × Instruction)) (g : Globals)
    (h : g.csErrorPresent = true) : (reportAll calls g).csErrorPresent = true := by
  induction calls generalizing g with
  | nil => exact h
  | cons call calls ih => exact ih (hpErrorHandler call.1 call.2 g) rfl

/-- C3: recording any per-line error marks the run as failed. For every integer
code e and every instruction, after hpErrorHandler(e, instruction) the flag
csErrorPresent is true, whatever it was before; hpErrorHandler never sets it
back to false (a call on a state whose flag is set leaves it set), so after any
further calls of hpErrorHandler the flag is still true. -/
theorem C3_error_marks_run_failed :
    (∀ (e : Int) (instruction : Instruction) (g : Globals),
      (hpErrorHandler e instruction g).csErrorPresent = true) ∧
    (∀ (e : Int) (instruction : Instruction) (g : Globals),
      (hpErrorHandler e instruction g).csErrorPresent = false → False) ∧
    (∀ (e : Int) (instruction : Instruction) (g : Globals) (later : List (Int × Instruction)),
      (reportAll later (hpErrorHandler e instruction g)).csErrorPresent = true) := by
  refine ⟨fun _ _ _ => rfl, ?_, ?_⟩
  · intro e instruction g h
    simp [hpErrorHandler] at h
  · intro e instruction g later
    exact reportAll_keeps_flag later _ rfl

/-- The text of a span in the buffer has `Length` characters. -/
theorem SubString.text_length (src : List Char) (s : SubString) (h : s.InBuffer src) :
    (s.text src).length = s.Length.toNat := by
  obtain ⟨h0, h1, h2⟩ := h
  simp only [SubString.text, List.length_take, List.length_drop]
  omega

/-- Inside a span in the buffer, `component[k]` is character `k` of its text. -/
theorem SubString.text_getElem? (src : List Char) (s : SubString) (h : s.InBuffer src)
    (k : Nat) (hk : (k : Int) < s.Length) :
    (s.text src)[k]? = some (s.get src k) := by
  obtain ⟨h0, h1, h2⟩ := h
  have hk1 : k < s.Length.toNat := by omega
  have hk2 : s.Start.toNat + k < src.length := by omega
  have hk3 : (s.Start + (k : Int)).toNat = s.Start.toNat + k := by omega
  have hk4 : 0 ≤ s.Start + (k : Int) := by omega
  simp [SubString.text, SubString.get, List.getElem?_take, List.getElem?_drop, hk1, hk2, hk3,
    hk4, List.getD]

/-- On a non-empty span in the buffer, `OperandRule32I::Process` converts with
the conversion the classification of the span's text names, and continues at
the label `write` with its outcome. -/
theorem OperandRule32I_Process_classify (ext : Externals) (component : SubString) (g : Globals)
    (h : component.InBuffer g.csSource) (hpos : 0 < component.Length) :
    OperandRule32I.Process ext component g =
      OperandRule32I.write ext component g
        (ext.convert (classifyImmediate (component.text g.csSource)) g.csSource component) := by
  have hlen := SubString.text_length g.csSource component h
  have t0 : (component.text g.csSource)[0]? = some (component.get g.csSource 0) := by
    simpa using SubString.text_getElem? g.csSource component h 0 (by simpa using hpos)
  have t1 : 1 < component.Length →
      (component.text g.csSource)[1]? = some (component.get g.csSource 1) := by
    intro h1
    simpa using SubString.text_getElem? g.csSource component h 1 (by simpa using h1)
  have t2 : 2 < component.Length →
      (component.text g.csSource)[2]? = some (component.get g.csSource 2) := by
    intro h2
    simpa using SubString.text_getElem? g.csSource component h 2 (by simpa using h2)
  unfold OperandRule32I.Process classifyImmediate
  rw [t0]
  by_cases hF : component.get g.csSource 0 = 'F'
  · simp [hF, Externals.convert]
  · by_cases hM : component.get g.csSource 0 = '-'
    · by_cases hL : component.Length - 1 > 2
      · have e1 := t1 (by omega)
        have e2 := t2 (by omega)
        have hl : 2 < (component.text g.csSource).length - 1 := by omega
        by_cases hc : component.get g.csSource 1 = '0' ∧
            (component.get g.csSource 2 = 'x' ∨ component.get g.csSource 2 = 'X')
        · simp [hF, hM, hL, hl, hc, e1, e2, Externals.convert, List.getElem?_drop]
        · simp [hF, hM, hL, hl, hc, e1, e2, Externals.convert, List.getElem?_drop]
      · have hl : ¬ 2 < (component.text g.csSource).length - 1 := by omega
        simp [hF, hM, hL, hl, Externals.convert]
    · by_cases hL : component.Length > 2
      · have e0 := t0
        have e1 := t1 (by omega)
        have hl : 2 < (component.text g.csSource).length := by omega
        by_cases hc : component.get g.csSource 0 = '0' ∧
            (component.get g.csSource 1 = 'x' ∨ component.get g.csSource 1 = 'X')
        · simp [hF, hM, hL, hl, hc, e0, e1, Externals.convert]
        · simp [hF, hM, hL, hl, hc, e0, e1, Externals.convert]
      · have hl : ¬ 2 < (component.text g.csSource).length := by omega
        simp [hF, hM, hL, hl, Externals.convert]

/-- C4: OperandRule32I.Process classifies every immediate literal (a non-empty
span of the source buffer) into exactly one of float, hex or decimal: float iff
the first character is F; otherwise hex iff, after skipping at most one leading
minus sign, more than two characters remain and the first two of them are 0
followed by x or X; otherwise decimal. The value the chosen conversion returns is
the value passed to WriteToImmediate32, and a conversion that throws ends the
call with nothing written. The literals 0x14 and -0x14 are hex; 0x, -0x and 14
are decimal. -/
theorem C4_immediate_classification :
    (∀ (ext : Externals) (component : SubString) (g : Globals),
      component.InBuffer g.csSource → 0 < component.Length →
      OperandRule32I.Process ext component g =
        OperandRule32I.write ext component g
          (ext.convert (classifyImmediate (component.text g.csSource)) g.csSource component)) ∧
    (∀ (ext : Externals) (component : SubString) (g : Globals) (v : Nat),
      component.InBuffer g.csSource → 0 < component.Length →
      ext.convert (classifyImmediate (component.text g.csSource)) g.csSource component
        = Except.ok v →
      OperandRule32I.Process ext component g =
        { thrown := (ext.WriteToImmediate32 v g).thrown, component := component,
          globals := (ext.WriteToImmediate32 v g).globals }) ∧
    (∀ (ext : Externals) (component : SubString) (g : Globals) (e : Int),
      component.InBuffer g.csSource → 0 < component.Length →
      ext.convert (classifyImmediate (component.text g.csSource)) g.csSource component
        = Except.error e →
      OperandRule32I.Process ext component g =
        { thrown := some e, component := component, globals := g }) ∧
    classifyImmediate "0x14".toList = ImmediateKind.hex ∧
    classifyImmediate "-0x14".toList = ImmediateKind.hex ∧
    classifyImmediate "0x".toList = ImmediateKind.decimal ∧
    classifyImmediate "-0x".toList = ImmediateKind.decimal ∧
    classifyImmediate "14".toList = ImmediateKind.decimal ∧
    (∀ ext : Externals,
      OperandRule32I.Process ext (wholeSpan "0x14") (operandBuffer "0x14") =
        OperandRule32I.write ext (wholeSpan "0x14") (operandBuffer "0x14")
          (ext.ToImmediate32FromHexConstant true "0x14".toList (wholeSpan "0x14"))) ∧
    (∀ ext : Externals,
      OperandRule32I.Process ext (wholeSpan "-0x14") (operandBuffer "-0x14") =
        OperandRule32I.write ext (wholeSpan "-0x14") (operandBuffer "-0x14")
          (ext.ToImmediate32FromHexConstant true "-0x14".toList (wholeSpan "-0x14"))) ∧
    (∀ ext : Externals,
      OperandRule32I.Process ext (wholeSpan "0x") (operandBuffer "0x") =
        OperandRule32I.write ext (wholeSpan "0x") (operandBuffer "0x")
          (ext.ToImmediate32FromIntConstant "0x".toList (wholeSpan "0x"))) ∧
    (∀ ext : Externals,
      OperandRule32I.Process ext (wholeSpan "-0x") (operandBuffer "-0x") =
        OperandRule32I.write ext (wholeSpan "-0x") (operandBuffer "-0x")
          (ext.ToImmediate32FromIntConstant "-0x".toList (wholeSpan "-0x"))) ∧
    (∀ ext : Externals,
      OperandRule32I.Process ext (wholeSpan "14") (operandBuffer "14") =
        OperandRule32I.write ext (wholeSpan "14") (operandBuffer "14")
          (ext.ToImmediate32FromIntConstant "14".toList (wholeSpan "14"))) := by
  refine ⟨OperandRule32I_Process_classify, ?_, ?_, by decide, by decide, by decide, by decide,
    by decide, ?_, ?_, ?_, ?_, ?_⟩
  · intro ext component g v h hpos hv
    rw [OperandRule32I_Process_classify ext component g h hpos, hv]
    rfl
  · intro ext component g e h hpos he
    rw [OperandRule32I_Process_classify ext component g h hpos, he]
    rfl
  · intro ext
    exact OperandRule32I_Process_classify ext (wholeSpan "0x14") (operandBuffer "0x14")
      (by decide) (by decide)
  · intro ext
    exact OperandRule32I_Process_classify ext (wholeSpan "-0x14") (operandBuffer "-0x14")
      (by decide) (by decide)
  · intro ext
    exact OperandRule32I_Process_classify ext (wholeSpan "0x") (operandBuffer "0x")
      (by decide) (by decide)
  · intro ext
    exact OperandRule32I_Process_classify ext (wholeSpan "-0x") (operandBuffer "-0x")
      (by decide) (by decide)
  · intro ext
    exact OperandRule32I_Process_classify ext (wholeSpan "14") (operandBuffer "14")
      (by decide) (by decide)

/-- Witness for C4: on the operand `0x14` of the test's `MOV32I R0, 0x14`, with
the sample externals, the value of the hex conversion (2) reaches
`WriteToImmediate32` and ends in word0. -/
theorem C4_immediate_classification_witness :
    (wholeSpan "0x14").InBuffer (operandBuffer "0x14").csSource ∧
    0 < (wholeSpan "0x14").Length ∧
    sampleExternals.convert (classifyImmediate ((wholeSpan "0x14").text
      (operandBuffer "0x14").csSource)) (operandBuffer "0x14").csSource (wholeSpan "0x14")
      = Except.ok 2 ∧
    OperandRule32I.Process sampleExternals (wholeSpan "0x14") (operandBuffer "0x14") =
      { thrown := (sampleExternals.WriteToImmediate32 2 (operandBuffer "0x14")).thrown,
        component := wholeSpan "0x14",
        globals := (sampleExternals.WriteToImmediate32 2 (operandBuffer "0x14")).globals } :=
  ⟨by decide, by decide, rfl,
   C4_immediate_classification.2.1 sampleExternals (wholeSpan "0x14") (operandBuffer "0x14") 2
     (by decide) (by decide) rfl⟩

/-! ### The prefix rules `OperandRuleLOP` and `OperandRuleF2I` -/

/-- Undoing the strip gives the span back. -/
theorem SubString.unstripFirst_stripFirst (s : SubString) : s.stripFirst.unstripFirst = s := by
  cases s
  simp [SubString.stripFirst, SubString.unstripFirst]

/-- The strip removes exactly the first character of a non-empty span in the
buffer. -/
theorem SubString.text_stripFirst (src : List Char) (s : SubString) (h : s.InBuffer src)
    (hpos : 0 < s.Length) : s.stripFirst.text src = (s.text src).drop 1 := by
  obtain ⟨h0, h1, h2⟩ := h
  have e1 : (s.Start + 1).toNat = s.Start.toNat + 1 := by omega
  have e2 : (s.Length - 1).toNat = s.Length.toNat - 1 := by omega
  simp only [SubString.text, SubString.stripFirst, e1, e2]
  rw [List.drop_take, List.drop_drop]

/-- `OperandRuleLOP::Process` on an operand with `~`, too short after the strip:
error 132 with the stripped span and untouched globals. -/
theorem OperandRuleLOP_Process_prefix_empty (ext : Externals) (ModShift : Nat)
    (component : SubString) (g : Globals) (hp : component.get g.csSource 0 = '~')
    (hlen : component.stripFirst.Length < 1) :
    OperandRuleLOP.Process ext ModShift component g =
      { thrown := some 132, component := component.stripFirst, globals := g } := by
  simp [OperandRuleLOP.Process, hp, hlen]

/-- `OperandRuleLOP::Process` on an operand with `~` whose delegate returns
normally: the bit is ORed into the word the delegate left, and the strip is
undone on the span the delegate left. -/
theorem OperandRuleLOP_Process_prefix_ok (ext : Externals) (ModShift : Nat)
    (component : SubString) (g : Globals) (hp : component.get g.csSource 0 = '~')
    (hlen : 1 ≤ component.stripFirst.Length)
    (hok : (OperandRuleLOP.delegate ext ModShift component.stripFirst g).thrown = none) :
    OperandRuleLOP.Process ext ModShift component g =
      { thrown := none
        component :=
          (OperandRuleLOP.delegate ext ModShift component.stripFirst g).component.unstripFirst
        globals :=
          (OperandRuleLOP.delegate ext ModShift component.stripFirst g).globals.orWord0
            ModShift } := by
  have hl : ¬ component.stripFirst.Length < 1 := by omega
  simp [OperandRuleLOP.Process, hp, hl, hok]

/-- `OperandRuleLOP::Process` on an operand with `~` whose delegate throws: the
outcome of the delegate, as it is. -/
theorem OperandRuleLOP_Process_prefix_throw (ext : Externals) (ModShift : Nat)
    (component : SubString) (g : Globals) (hp : component.get g.csSource 0 = '~')
    (hlen : 1 ≤ component.stripFirst.Length) (e : Int)
    (hthrow : (OperandRuleLOP.delegate ext ModShift component.stripFirst g).thrown = some e) :
    OperandRuleLOP.Process ext ModShift component g =
      OperandRuleLOP.delegate ext ModShift component.stripFirst g := by
  have hl : ¬ component.stripFirst.Length < 1 := by omega
  simp [OperandRuleLOP.Process, hp, hl, hthrow]

/-- `OperandRuleLOP::Process` on an operand without `~`: the outcome of the
delegate on the same span and globals, as it is. -/
theorem OperandRuleLOP_Process_plain (ext : Externals) (ModShift : Nat)
    (component : SubString) (g : Globals) (hp : component.get g.csSource 0 ≠ '~')
    (hlen : 1 ≤ component.Length) :
    OperandRuleLOP.Process ext ModShift component g =
      OperandRuleLOP.delegate ext ModShift component g := by
  have hl : ¬ component.Length < 1 := by omega
  simp only [OperandRuleLOP.Process, hp, decide_False, Bool.false_eq_true, if_false, hl]
  split <;> rfl

/-- `OperandRuleF2I::Process` on an operand with `-` or `|`: the delegate runs on
the stripped span with the globals after the prefix statement; on a normal
return the strip is undone, on a throw the outcome is the delegate's. -/
theorem OperandRuleF2I_Process_stripped (ext : Externals) (F2I : Bool)
    (component : SubString) (g : Globals)
    (hp : component.get g.csSource 0 = '-' ∨ component.get g.csSource 0 = '|') :
    OperandRuleF2I.Process ext F2I component g =
      match (OperandRuleF2I.delegate ext F2I component.stripFirst
        (OperandRuleF2I.prefixGlobals component g)).thrown with
      | some _ => OperandRuleF2I.delegate ext F2I component.stripFirst
          (OperandRuleF2I.prefixGlobals component g)
      | none =>
        { OperandRuleF2I.delegate ext F2I component.stripFirst
            (OperandRuleF2I.prefixGlobals component g) with
          component := (OperandRuleF2I.delegate ext F2I component.stripFirst
            (OperandRuleF2I.prefixGlobals component g)).component.unstripFirst } := by
  have ho : (decide (component.get g.csSource 0 = '-') ||
      decide (component.get g.csSource 0 = '|')) = true := by
    rcases hp with hp | hp <;> simp [hp]
  simp only [OperandRuleF2I.Process, ho, if_true]

/-- `OperandRuleF2I::Process` on an operand without `-` or `|`: the outcome of
the delegate on the same span and globals, as it is. -/
theorem OperandRuleF2I_Process_plain (ext : Externals) (F2I : Bool)
    (component : SubString) (g : Globals)
    (hm : component.get g.csSource 0 ≠ '-') (hb : component.get g.csSource 0 ≠ '|') :
    OperandRuleF2I.Process ext F2I component g = OperandRuleF2I.delegate ext F2I component g := by
  simp only [OperandRuleF2I.Process, OperandRuleF2I.prefixGlobals, hm, hb, decide_False,
    Bool.or_self, Bool.false_eq_true, if_false]
  split <;> rfl

/-- Bit `i` of a 32-bit word after `word |= 1<<shift`. -/
theorem testBit_or_shift (word shift i : Nat) (hi : i < 32) :
    ((word ||| (1 <<< shift)) % 2 ^ 32).testBit i = (word.testBit i || decide (shift = i)) := by
  rw [Nat.testBit_mod_two_pow, Nat.testBit_or, Nat.one_shiftLeft, Nat.testBit_two_pow]
  simp [hi]

/-- C5: a unary prefix sets exactly one modifier bit of OpcodeWord0 and nothing
else, assuming the delegated encoder returns normally. OperandRuleLOP with a
leading tilde returns normally with the globals the delegate left, bit ModShift
ORed into OpcodeWord0 (9 for OPRLOP1, 8 for OPRLOP2); without the tilde its
outcome is the delegate's. OperandRuleF2I (OPRF2I and OPRI2F) hands the delegate
the globals with bit 8 ORed in for a leading minus, bit 6 for a leading bar, one
of the two at most (the operand -|R1| sets only bit 8), and the unchanged
globals when neither is present, and it ends with the globals the delegate left.
The OR changes nothing but OpcodeWord0, leaves OpcodeWord1 as it was, and a bit
of the 32-bit word is set afterwards iff it was set before or is the prefix
bit. -/
theorem C5_prefix_sets_one_bit :
    (∀ (ext : Externals) (ModShift : Nat) (component : SubString) (g : Globals),
      component.get g.csSource 0 = '~' → 1 ≤ component.stripFirst.Length →
      (OperandRuleLOP.delegate ext ModShift component.stripFirst g).thrown = none →
      (OperandRuleLOP.Process ext ModShift component g).thrown = none ∧
      (OperandRuleLOP.Process ext ModShift component g).globals =
        (OperandRuleLOP.delegate ext ModShift component.stripFirst g).globals.orWord0
          ModShift) ∧
    (∀ (ext : Externals) (ModShift : Nat) (component : SubString) (g : Globals),
      component.get g.csSource 0 ≠ '~' → 1 ≤ component.Length →
      OperandRuleLOP.Process ext ModShift component g =
        OperandRuleLOP.delegate ext ModShift component g) ∧
    (∀ ext : Externals,
      (OPRLOP1 ext).Process = OperandRuleLOP.Process ext 9 ∧
      (OPRLOP2 ext).Process = OperandRuleLOP.Process ext 8 ∧
      (OPRF2I ext).Process = OperandRuleF2I.Process ext true ∧
      (OPRI2F ext).Process = OperandRuleF2I.Process ext false) ∧
    (∀ (ext : Externals) (F2I : Bool) (component : SubString) (g : Globals),
      component.get g.csSource 0 = '-' →
      (OperandRuleF2I.delegate ext F2I component.stripFirst (g.orWord0 8)).thrown = none →
      (OperandRuleF2I.Process ext F2I component g).thrown = none ∧
      (OperandRuleF2I.Process ext F2I component g).globals =
        (OperandRuleF2I.delegate ext F2I component.stripFirst (g.orWord0 8)).globals) ∧
    (∀ (ext : Externals) (F2I : Bool) (component : SubString) (g : Globals),
      component.get g.csSource 0 = '|' →
      (OperandRuleF2I.delegate ext F2I component.stripFirst (g.orWord0 6)).thrown = none →
      (OperandRuleF2I.Process ext F2I component g).thrown = none ∧
      (OperandRuleF2I.Process ext F2I component g).globals =
        (OperandRuleF2I.delegate ext F2I component.stripFirst (g.orWord0 6)).globals) ∧
    (∀ (ext : Externals) (F2I : Bool) (component : SubString) (g : Globals),
      component.get g.csSource 0 ≠ '-' → component.get g.csSource 0 ≠ '|' →
      OperandRuleF2I.Process ext F2I component g =
        OperandRuleF2I.delegate ext F2I component g) ∧
    (∀ (g : Globals) (shift : Nat),
      g.orWord0 shift =
        { g with csCurrentInstruction :=
            { g.csCurrentInstruction with
              OpcodeWord0 := (g.orWord0 shift).csCurrentInstruction.OpcodeWord0 } } ∧
      (g.orWord0 shift).csCurrentInstruction.OpcodeWord1
        = g.csCurrentInstruction.OpcodeWord1) ∧
    (∀ (g : Globals) (shift i : Nat), i < 32 →
      (g.orWord0 shift).csCurrentInstruction.OpcodeWord0.testBit i =
        (g.csCurrentInstruction.OpcodeWord0.testBit i || decide (shift = i))) ∧
    (OperandRuleF2I.Process sampleExternals true (wholeSpan "-|R1|")
      (operandBuffer "-|R1|")).globals.csCurrentInstruction.OpcodeWord0 = 2 ^ 8 := by
  refine ⟨?_, OperandRuleLOP_Process_plain, fun _ => ⟨rfl, rfl, rfl, rfl⟩, ?_, ?_,
    OperandRuleF2I_Process_plain, fun _ _ => ⟨rfl, rfl⟩, ?_, by decide⟩
  · intro ext ModShift component g hp hlen hok
    rw [OperandRuleLOP_Process_prefix_ok ext ModShift component g hp hlen hok]
    exact ⟨rfl, rfl⟩
  · intro ext F2I component g hp hok
    have hg : OperandRuleF2I.prefixGlobals component g = g.orWord0 8 := by
      simp [OperandRuleF2I.prefixGlobals, hp]
    rw [OperandRuleF2I_Process_stripped ext F2I component g (Or.inl hp), hg, hok]
    exact ⟨hok, rfl⟩
  · intro ext F2I component g hp hok
    have hg : OperandRuleF2I.prefixGlobals component g = g.orWord0 6 := by
      simp [OperandRuleF2I.prefixGlobals, hp]
    rw [OperandRuleF2I_Process_stripped ext F2I component g (Or.inr hp), hg, hok]
    exact ⟨hok, rfl⟩
  · intro g shift i hi
    exact testBit_or_shift g.csCurrentInstruction.OpcodeWord0 shift i hi

/-- Witness for C5: OPRLOP1 on the operand `~R1` with an accepting delegate sets
bit 9 of a zero word0. -/
theorem C5_prefix_sets_one_bit_witness :
    (wholeSpan "~R1").get (operandBuffer "~R1").csSource 0 = '~' ∧
    (OperandRuleLOP.Process sampleExternals 9 (wholeSpan "~R1") (operandBuffer "~R1")).thrown
      = none ∧
    (OperandRuleLOP.Process sampleExternals 9 (wholeSpan "~R1") (operandBuffer "~R1")).globals
      = (operandBuffer "~R1").orWord0 9 ∧
    ((operandBuffer "~R1").orWord0 9).csCurrentInstruction.OpcodeWord0 = 2 ^ 9 :=
  ⟨by decide,
   (C5_prefix_sets_one_bit.1 sampleExternals 9 (wholeSpan "~R1") (operandBuffer "~R1")
      (by decide) (by decide) rfl).1,
   (C5_prefix_sets_one_bit.1 sampleExternals 9 (wholeSpan "~R1") (operandBuffer "~R1")
      (by decide) (by decide) rfl).2,
   by decide⟩

/-- C6: span restoration on success. If the delegated encoder returns normally
and leaves the span it was given unchanged, then OperandRuleLOP.Process and
OperandRuleF2I.Process return normally with the span's Start and Length as they
were before the call, with a prefix (tilde, minus, bar) stripped and with none.
With a prefix the delegate is given the span without exactly its first
character, and without one the span itself: the outcome of Process is the
outcome of the delegate on that span, with the span restored (and, for LOP with
a tilde, the bit ORed in). For the operand |R1| the delegate sees R1|. -/
theorem C6_span_restored_on_success :
    (∀ (ext : Externals) (ModShift : Nat) (component : SubString) (g : Globals),
      component.get g.csSource 0 = '~' → 1 ≤ component.stripFirst.Length →
      (OperandRuleLOP.delegate ext ModShift component.stripFirst g).thrown = none →
      (OperandRuleLOP.delegate ext ModShift component.stripFirst g).component
        = component.stripFirst →
      (OperandRuleLOP.Process ext ModShift component g).thrown = none ∧
      (OperandRuleLOP.Process ext ModShift component g).component = component ∧
      OperandRuleLOP.Process ext ModShift component g =
        { thrown := none, component := component,
          globals :=
            (OperandRuleLOP.delegate ext ModShift component.stripFirst g).globals.orWord0
              ModShift }) ∧
    (∀ (ext : Externals) (ModShift : Nat) (component : SubString) (g : Globals),
      component.get g.csSource 0 ≠ '~' → 1 ≤ component.Length →
      (OperandRuleLOP.delegate ext ModShift component g).thrown = none →
      (OperandRuleLOP.delegate ext ModShift component g).component = component →
      (OperandRuleLOP.Process ext ModShift component g).thrown = none ∧
      (OperandRuleLOP.Process ext ModShift component g).component = component ∧
      OperandRuleLOP.Process ext ModShift component g =
        { thrown := none, component := component,
          globals := (OperandRuleLOP.delegate ext ModShift component g).globals }) ∧
    (∀ (ext : Externals) (F2I : Bool) (component : SubString) (g : Globals),
      (component.get g.csSource 0 = '-' ∨ component.get g.csSource 0 = '|') →
      (OperandRuleF2I.delegate ext F2I component.stripFirst
        (OperandRuleF2I.prefixGlobals component g)).thrown = none →
      (OperandRuleF2I.delegate ext F2I component.stripFirst
        (OperandRuleF2I.prefixGlobals component g)).component = component.stripFirst →
      (OperandRuleF2I.Process ext F2I component g).thrown = none ∧
      (OperandRuleF2I.Process ext F2I component g).component = component ∧
      OperandRuleF2I.Process ext F2I component g =
        { thrown := none, component := component,
          globals := (OperandRuleF2I.delegate ext F2I component.stripFirst
            (OperandRuleF2I.prefixGlobals component g)).globals }) ∧
    (∀ (ext : Externals) (F2I : Bool) (component : SubString) (g : Globals),
      component.get g.csSource 0 ≠ '-' → component.get g.csSource 0 ≠ '|' →
      (OperandRuleF2I.delegate ext F2I component g).thrown = none →
      (OperandRuleF2I.delegate ext F2I component g).component = component →
      (OperandRuleF2I.Process ext F2I component g).thrown = none ∧
      (OperandRuleF2I.Process ext F2I component g).component = component ∧
      OperandRuleF2I.Process ext F2I component g =
        { thrown := none, component := component,
          globals := (OperandRuleF2I.delegate ext F2I component g).globals }) ∧
    (∀ (src : List Char) (component : SubString),
      component.InBuffer src → 0 < component.Length →
      component.stripFirst.text src = (component.text src).drop 1) ∧
    (wholeSpan "|R1|").stripFirst.text (operandBuffer "|R1|").csSource = "R1|".toList ∧
    (OperandRuleF2I.Process sampleExternals true (wholeSpan "|R1|")
      (operandBuffer "|R1|")).component = wholeSpan "|R1|" ∧
    OperandRuleF2I.Process echoingExternals true (wholeSpan "|R1|") (operandBuffer "|R1|") =
      { thrown := none, component := wholeSpan "|R1|",
        globals := { (operandBuffer "|R1|").orWord0 6 with cout := ["R1|"] } } ∧
    OperandRuleF2I.Process echoingExternals false (wholeSpan "-R1") (operandBuffer "-R1") =
      { thrown := none, component := wholeSpan "-R1",
        globals := { (operandBuffer "-R1").orWord0 8 with cout := ["R1"] } } ∧
    OperandRuleLOP.Process echoingExternals 9 (wholeSpan "~R1") (operandBuffer "~R1") =
      { thrown := none, component := wholeSpan "~R1",
        globals := { (operandBuffer "~R1").orWord0 9 with cout := ["R1"] } } ∧
    OperandRuleLOP.Process echoingExternals 8 (wholeSpan "R1") (operandBuffer "R1") =
      { thrown := none, component := wholeSpan "R1",
        globals := { operandBuffer "R1" with cout := ["R1"] } } := by
  refine ⟨?_, ?_, ?_, ?_, SubString.text_stripFirst, by decide, by decide, by decide, by decide,
    by decide, by decide⟩
  · intro ext ModShift component g hp hlen hok hsame
    rw [OperandRuleLOP_Process_prefix_ok ext ModShift component g hp hlen hok, hsame,
      SubString.unstripFirst_stripFirst]
    exact ⟨rfl, rfl, rfl⟩
  · intro ext ModShift component g hp hlen hok hsame
    rw [OperandRuleLOP_Process_plain ext ModShift component g hp hlen]
    refine ⟨hok, hsame, ?_⟩
    cases hd : OperandRuleLOP.delegate ext ModShift component g with
    | mk thrown comp globals =>
      rw [hd] at hok hsame
      simp only at hok hsame
      rw [hok, hsame]
  · intro ext F2I component g hp hok hsame
    rw [OperandRuleF2I_Process_stripped ext F2I component g hp, hok]
    simp only [hsame, SubString.unstripFirst_stripFirst]
    exact ⟨hok, trivial, by rw [hok]⟩
  · intro ext F2I component g hm hb hok hsame
    rw [OperandRuleF2I_Process_plain ext F2I component g hm hb]
    refine ⟨hok, hsame, ?_⟩
    cases hd : OperandRuleF2I.delegate ext F2I component g with
    | mk thrown comp globals =>
      rw [hd] at hok hsame
      simp only at hok hsame
      rw [hok, hsame]

/-- Witness for C6: OPRLOP2 on the operand `~R1` with an accepting delegate that
leaves the span alone ends with the span `~R1`. -/
theorem C6_span_restored_on_success_witness :
    (wholeSpan "~R1").get (operandBuffer "~R1").csSource 0 = '~' ∧
    1 ≤ (wholeSpan "~R1").stripFirst.Length ∧
    (OperandRuleLOP.Process sampleExternals 8 (wholeSpan "~R1") (operandBuffer "~R1")).thrown
      = none ∧
    (OperandRuleLOP.Process sampleExternals 8 (wholeSpan "~R1") (operandBuffer "~R1")).component
      = wholeSpan "~R1" ∧
    OperandRuleLOP.Process sampleExternals 8 (wholeSpan "~R1") (operandBuffer "~R1") =
      { thrown := none, component := wholeSpan "~R1",
        globals :=
          (OperandRuleLOP.delegate sampleExternals 8 (wholeSpan "~R1").stripFirst
            (operandBuffer "~R1")).globals.orWord0 8 } :=
  ⟨by decide, by decide,
   C6_span_restored_on_success.1 sampleExternals 8 (wholeSpan "~R1") (operandBuffer "~R1")
      (by decide) (by decide) rfl rfl⟩

/-- C7, counterexample: OPRLOP1 on the operand `~`, whose span is (Start 0,
Length 1), raises 132 and ends with the span (Start 1, Length 0): the span is
not restored. -/
theorem C7_counterexample_span_stripped :
    wholeSpan "~" = { Start := 0, Length := 1 } ∧
    ((OPRLOP1 sampleExternals).Process (wholeSpan "~") (operandBuffer "~")).thrown = some 132 ∧
    ((OPRLOP1 sampleExternals).Process (wholeSpan "~") (operandBuffer "~")).component
      = { Start := 1, Length := 0 } := by
  decide

/-- C7, amended: when OperandRuleLOP.Process or OperandRuleF2I.Process ends by
raising an error on an operand that begins with a unary prefix, the span is not
restored; the restore runs only on a normal return. After LOP's own
empty-operand error the span is the stripped one (Start one more, Length one
less than before the call); after an error of the delegated encoder the outcome
is the delegate's, with the span as the delegate left the stripped span. OPRLOP1
on the operand `~` leaves the span (1, 0) where it was (0, 1); with a delegate
that rejects, OPRLOP1 on `~R1` and OPRF2I on `-R1` leave (1, 2) where it was
(0, 3). The error message produced afterwards shows the original text all the
same: hpErrorHandler prints the InstructionString of the instruction, whatever
the operand spans in Components are. -/
theorem C7_span_left_stripped_on_error :
    (∀ ext : Externals,
      (OPRLOP1 ext).Process (wholeSpan "~") (operandBuffer "~") =
        { thrown := some 132, component := { Start := 1, Length := 0 },
          globals := operandBuffer "~" }) ∧
    wholeSpan "~" = { Start := 0, Length := 1 } ∧
    (∀ (ext : Externals) (ModShift : Nat) (component : SubString) (g : Globals),
      component.get g.csSource 0 = '~' → component.stripFirst.Length < 1 →
      (OperandRuleLOP.Process ext ModShift component g).thrown = some 132 ∧
      (OperandRuleLOP.Process ext ModShift component g).component.Start = component.Start + 1 ∧
      (OperandRuleLOP.Process ext ModShift component g).component.Length
        = component.Length - 1) ∧
    (∀ (ext : Externals) (ModShift : Nat) (component : SubString) (g : Globals) (e : Int),
      component.get g.csSource 0 = '~' → 1 ≤ component.stripFirst.Length →
      (OperandRuleLOP.delegate ext ModShift component.stripFirst g).thrown = some e →
      OperandRuleLOP.Process ext ModShift component g =
        OperandRuleLOP.delegate ext ModShift component.stripFirst g) ∧
    (∀ (ext : Externals) (F2I : Bool) (component : SubString) (g : Globals) (e : Int),
      (component.get g.csSource 0 = '-' ∨ component.get g.csSource 0 = '|') →
      (OperandRuleF2I.delegate ext F2I component.stripFirst
        (OperandRuleF2I.prefixGlobals component g)).thrown = some e →
      OperandRuleF2I.Process ext F2I component g =
        OperandRuleF2I.delegate ext F2I component.stripFirst
          (OperandRuleF2I.prefixGlobals component g)) ∧
    (OPRLOP1 rejectingExternals).Process (wholeSpan "~R1") (operandBuffer "~R1") =
      { thrown := some 104, component := { Start := 1, Length := 2 },
        globals := operandBuffer "~R1" } ∧
    (OPRF2I rejectingExternals).Process (wholeSpan "-R1") (operandBuffer "-R1") =
      { thrown := some 104, component := { Start := 1, Length := 2 },
        globals := (operandBuffer "-R1").orWord0 8 } ∧
    wholeSpan "~R1" = { Start := 0, Length := 3 } ∧
    (∀ (e : Int) (instruction : Instruction) (g : Globals),
      (hpErrorHandler e instruction g).cout = g.cout ++
        ["Line " ++ toString instruction.LineNumber ++ ": " ++
          instruction.InstructionString.ToCharArrayStopOnCR g.csSource ++ ": " ++
          hpErrorHandler.message e]) ∧
    (∀ (e : Int) (instruction : Instruction) (g : Globals) (components : List SubString),
      hpErrorHandler e { instruction with Components := components } g
        = hpErrorHandler e instruction g) ∧
    (hpErrorHandler 132
      { lopLine with Components := [{ Start := 0, Length := 3 }, { Start := 8, Length := 2 },
          { Start := 12, Length := 2 }, { Start := 17, Length := 0 }] }
      (operandBuffer "LOP.AND R0, R1, ~;")).cout =
      ["Line 7: LOP.AND R0, R1, ~;: Unknown Error"] := by
  refine ⟨?_, by decide, ?_, ?_, ?_, by decide, by decide, by decide, fun _ _ _ => rfl,
    fun _ _ _ _ => rfl, by decide⟩
  · intro ext
    exact OperandRuleLOP_Process_prefix_empty ext 9 (wholeSpan "~") (operandBuffer "~")
      (by decide) (by decide)
  · intro ext ModShift component g hp hlen
    rw [OperandRuleLOP_Process_prefix_empty ext ModShift component g hp hlen]
    exact ⟨rfl, rfl, rfl⟩
  · intro ext ModShift component g e hp hlen hthrow
    exact OperandRuleLOP_Process_prefix_throw ext ModShift component g hp hlen e hthrow
  · intro ext F2I component g e hp hthrow
    rw [OperandRuleF2I_Process_stripped ext F2I component g hp, hthrow]

/-- Witness for C7: OPRLOP2 on the operand `~`, with delegates that would
reject: error 132 with the span one character further and one shorter. -/
theorem C7_span_left_stripped_on_error_witness :
    (wholeSpan "~").get (operandBuffer "~").csSource 0 = '~' ∧
    (wholeSpan "~").stripFirst.Length < 1 ∧
    (OperandRuleLOP.Process rejectingExternals 8 (wholeSpan "~") (operandBuffer "~")).thrown
      = some 132 ∧
    (OperandRuleLOP.Process rejectingExternals 8 (wholeSpan "~")
      (operandBuffer "~")).component.Start = (wholeSpan "~").Start + 1 ∧
    (OperandRuleLOP.Process rejectingExternals 8 (wholeSpan "~")
      (operandBuffer "~")).component.Length = (wholeSpan "~").Length - 1 :=
  ⟨by decide, by decide,
   C7_span_left_stripped_on_error.2.2.1 rejectingExternals 8 (wholeSpan "~") (operandBuffer "~")
     (by decide) (by decide)⟩

/-! ### Modifier rules and the modifier engine -/

/-- The mask-then-OR edit is idempotent. -/
theorem maskThenOr_idem (word mask bits : Nat) :
    maskThenOr (maskThenOr word mask bits) mask bits = maskThenOr word mask bits := by
  apply Nat.eq_of_testBit_eq
  intro i
  unfold maskThenOr
  rw [Nat.testBit_mod_two_pow, Nat.testBit_or, Nat.testBit_and, Nat.testBit_mod_two_pow,
    Nat.testBit_or, Nat.testBit_and]
  cases decide (i < 32) <;> cases word.testBit i <;> cases mask.testBit i <;>
    cases bits.testBit i <;> rfl

/-- Bit `i` of a 32-bit word after the mask-then-OR edit. -/
theorem maskThenOr_testBit (word mask bits i : Nat) (hi : i < 32) :
    (maskThenOr word mask bits).testBit i =
      ((word.testBit i && mask.testBit i) || bits.testBit i) := by
  unfold maskThenOr
  rw [Nat.testBit_mod_two_pow, Nat.testBit_or, Nat.testBit_and]
  simp [hi]

/-- The edit of a rule is idempotent on the pair of words. -/
theorem ModifierRule.edit_idem (rule : ModifierRule) (is8 : Bool) (words : Nat × Nat) :
    rule.edit is8 (rule.edit is8 words) = rule.edit is8 words := by
  unfold ModifierRule.edit
  cases rule.Apply0 <;> cases (is8 && rule.Apply1) <;> simp [maskThenOr_idem]

/-- A rule without custom processing applies without error. -/
theorem hpApplyModifier_generic (rule : ModifierRule) (g : Globals)
    (h : rule.NeedCustomProcessing = false) : (hpApplyModifier rule g).thrown = none := by
  simp [hpApplyModifier, h]

/-- A rule found in a group is one of the group's rules. -/
theorem ModifierGroup.find_mem (grp : ModifierGroup) (name : String) (rule : ModifierRule)
    (h : grp.find name = some rule) : rule ∈ grp.ModifierRules :=
  List.mem_of_find?_eq_some h

/-- The engine ends normally or with error 101, when applying a rule raises
nothing. -/
theorem ModifierEngine_error (groups : List ModifierGroup) :
    ∀ (mods : List String) (g : Globals), appliesWithoutError groups →
      (ModifierEngine groups mods g).thrown = none ∨
      (ModifierEngine groups mods g).thrown = some 101 := by
  induction groups with
  | nil =>
    intro mods g _
    cases mods <;> simp [ModifierEngine]
  | cons grp groups ih =>
    intro mods g happly
    have htail : appliesWithoutError groups := fun grp1 h1 => happly grp1 (List.mem_cons_of_mem _ h1)
    cases mods with
    | nil =>
      cases hopt : grp.Optional with
      | false => simp [ModifierEngine, hopt]
      | true =>
        simp only [ModifierEngine, hopt, if_true]
        exact ih [] g htail
    | cons m ms =>
      cases hfind : grp.find m with
      | none =>
        cases hopt : grp.Optional with
        | false => simp [ModifierEngine, hfind, hopt]
        | true =>
          simp only [ModifierEngine, hfind, hopt, if_true]
          exact ih (m :: ms) g htail
      | some rule =>
        have happ := happly grp (List.mem_cons_self _ _) rule (grp.find_mem m rule hfind) g
        simp only [ModifierEngine, hfind, happ]
        exact ih ms _ htail

/-- C8: a modifier rule's edit is idempotent. For every ModifierRule and every
pair of opcode words, applying the rule's edit word = (word & mask) | bits (to
word0 when Apply0, to word1 when Apply1) twice gives the same two words as
applying it once, also on the instruction itself; after the edit every bit of
bits is set in the edited 32-bit word, and every bit position where mask is 1
and bits is 0 keeps its previous value. -/
theorem C8_modifier_edit_idempotent :
    (∀ (rule : ModifierRule) (is8 : Bool) (words : Nat × Nat),
      rule.edit is8 (rule.edit is8 words) = rule.edit is8 words) ∧
    (∀ (rule : ModifierRule) (g : Globals), rule.NeedCustomProcessing = false →
      hpApplyModifier rule (hpApplyModifier rule g).globals = hpApplyModifier rule g) ∧
    (∀ (rule : ModifierRule) (words : Nat × Nat),
      (rule.edit true words).1 =
        (if rule.Apply0 then ((words.1 &&& rule.Mask0) ||| rule.Bits0) % 2 ^ 32 else words.1) ∧
      (rule.edit true words).2 =
        (if rule.Apply1 then ((words.2 &&& rule.Mask1) ||| rule.Bits1) % 2 ^ 32 else words.2)) ∧
    (∀ word mask bits i : Nat, i < 32 → bits.testBit i = true →
      (maskThenOr word mask bits).testBit i = true) ∧
    (∀ word mask bits i : Nat, i < 32 → mask.testBit i = true → bits.testBit i = false →
      (maskThenOr word mask bits).testBit i = word.testBit i) := by
  refine ⟨ModifierRule.edit_idem, ?_, ?_, ?_, ?_⟩
  · intro rule g h
    have hidem := ModifierRule.edit_idem rule g.csCurrentInstruction.Is8
      (g.csCurrentInstruction.OpcodeWord0, g.csCurrentInstruction.OpcodeWord1)
    simp only [hpApplyModifier, h, Bool.false_eq_true, if_false, hidem]
  · intro rule words
    simp [ModifierRule.edit, maskThenOr]
  · intro word mask bits i hi hb
    rw [maskThenOr_testBit word mask bits i hi, hb, Bool.or_true]
  · intro word mask bits i hi hm hb
    rw [maskThenOr_testBit word mask bits i hi, hm, hb, Bool.and_true, Bool.or_false]

/-- Witness for C8: the rule `U` (all ones as mask, bit 15 as bits) sets bit 15,
and a second application changes nothing. -/
theorem C8_modifier_edit_idempotent_witness :
    sampleU.edit true (0x00001DE7, 0x40000000) = (0x00009DE7, 0x40000000) ∧
    sampleU.edit true (sampleU.edit true (0x00001DE7, 0x40000000))
      = sampleU.edit true (0x00001DE7, 0x40000000) ∧
    (maskThenOr 0x00001DE7 0xFFFFFFFF 0x8000).testBit 15 = true ∧
    (maskThenOr 0x00001DE7 0xFFFEFFFF 0).testBit 5 = (0x00001DE7).testBit 5 :=
  ⟨by decide,
   C8_modifier_edit_idempotent.1 sampleU true (0x00001DE7, 0x40000000),
   C8_modifier_edit_idempotent.2.2.2.1 0x00001DE7 0xFFFFFFFF 0x8000 15 (by decide) (by decide),
   C8_modifier_edit_idempotent.2.2.2.2 0x00001DE7 0xFFFEFFFF 0 5 (by decide) (by decide)
     (by decide)⟩

/-- With two groups that share the name U, the first optional and the second
required, the walk lets the first group consume the single modifier U and
rejects the list at the second group, although the second group could have
consumed it had the first passed it over: without the premise that the groups
share no name, the two acceptance conditions differ. -/
theorem consumedByWalk_shared_name :
    acceptsInGroupOrder sharedNameGroups ["U"] = true ∧
    consumedByWalk sharedNameGroups ["U"] = false := by
  decide

/-- C10, the code at the failing input: OPRLOP1 on the operand `~` raises 132,
and hpErrorHandler has no message of its own for 132: it reports the default
"Unknown Error", the message it gives 131, 133 and every other code outside
100..115. -/
theorem C10_empty_operand_reported_unknown :
    (∀ ext : Externals,
      ((OPRLOP1 ext).Process (wholeSpan "~") (operandBuffer "~")).thrown = some 132) ∧
    hpErrorHandler.message 132 = "Unknown Error" ∧
    hpErrorHandler.message 132 = hpErrorHandler.message 131 ∧
    hpErrorHandler.message 132 = hpErrorHandler.message 133 ∧
    (hpErrorHandler 132 lopLine (operandBuffer "LOP.AND R0, R1, ~;")).cout =
      ["Line 7: LOP.AND R0, R1, ~;: Unknown Error"] := by
  refine ⟨?_, by decide, by decide, by decide, by decide⟩
  intro ext
  have h := OperandRuleLOP_Process_prefix_empty ext 9 (wholeSpan "~") (operandBuffer "~")
    (by decide) (by decide)
  exact congrArg ProcessResult.thrown h

/-! ### The rule table of `RulesInstructionExecution.h` -/

/-- C12: the execution-control rule table is well formed. EXIT and RET have no
operands and no modifier groups. BRA, CAL and PRET have one operand, the same
rule OPRImmediate24HexConstant for the three, and one modifier group, optional
and holding exactly one modifier (MRBRAU for BRA, MRCALNOINC for CAL and PRET);
the index 0 their constructors initialise is below ModifierGroupCount, the rule
holds exactly ModifierGroupCount groups and every group below the count is the
initialised one. All five rules have Is8 = true and NeedCustomProcessing =
false. -/
theorem C12_rule_table_shape :
    (IREXIT.OperandCount = 0 ∧ IREXIT.Operands.length = 0 ∧
      IREXIT.ModifierGroupCount = 0 ∧ IREXIT.ModifierGroups.length = 0 ∧
      IREXIT.Is8 = true ∧ IREXIT.NeedCustomProcessing = false) ∧
    (IRRET.OperandCount = 0 ∧ IRRET.Operands.length = 0 ∧
      IRRET.ModifierGroupCount = 0 ∧ IRRET.ModifierGroups.length = 0 ∧
      IRRET.Is8 = true ∧ IRRET.NeedCustomProcessing = false) ∧
    (∀ (opr : OperandRule) (MRBRAU : ModifierRule),
      (IRBRA opr MRBRAU).OperandCount = 1 ∧ (IRBRA opr MRBRAU).Operands = [opr] ∧
      (IRBRA opr MRBRAU).ModifierGroupCount = 1 ∧
      0 < (IRBRA opr MRBRAU).ModifierGroupCount ∧
      (IRBRA opr MRBRAU).ModifierGroups.length = (IRBRA opr MRBRAU).ModifierGroupCount ∧
      (∀ i : Nat, i < (IRBRA opr MRBRAU).ModifierGroupCount →
        (IRBRA opr MRBRAU).ModifierGroups[i]? = some (ModifierGroup.Initialize true [MRBRAU])) ∧
      (ModifierGroup.Initialize true [MRBRAU]).Optional = true ∧
      (ModifierGroup.Initialize true [MRBRAU]).ModifierCount = 1 ∧
      (IRBRA opr MRBRAU).Is8 = true ∧ (IRBRA opr MRBRAU).NeedCustomProcessing = false) ∧
    (∀ (opr : OperandRule) (MRCALNOINC : ModifierRule),
      (IRCAL opr MRCALNOINC).OperandCount = 1 ∧ (IRCAL opr MRCALNOINC).Operands = [opr] ∧
      (IRCAL opr MRCALNOINC).ModifierGroupCount = 1 ∧
      0 < (IRCAL opr MRCALNOINC).ModifierGroupCount ∧
      (IRCAL opr MRCALNOINC).ModifierGroups.length = (IRCAL opr MRCALNOINC).ModifierGroupCount ∧
      (∀ i : Nat, i < (IRCAL opr MRCALNOINC).ModifierGroupCount →
        (IRCAL opr MRCALNOINC).ModifierGroups[i]?
          = some (ModifierGroup.Initialize true [MRCALNOINC])) ∧
      (ModifierGroup.Initialize true [MRCALNOINC]).Optional = true ∧
      (ModifierGroup.Initialize true [MRCALNOINC]).ModifierCount = 1 ∧
      (IRCAL opr MRCALNOINC).Is8 = true ∧ (IRCAL opr MRCALNOINC).NeedCustomProcessing = false) ∧
    (∀ (opr : OperandRule) (MRCALNOINC : ModifierRule),
      (IRPRET opr MRCALNOINC).OperandCount = 1 ∧ (IRPRET opr MRCALNOINC).Operands = [opr] ∧
      (IRPRET opr MRCALNOINC).ModifierGroupCount = 1 ∧
      0 < (IRPRET opr MRCALNOINC).ModifierGroupCount ∧
      (IRPRET opr MRCALNOINC).ModifierGroups.length
        = (IRPRET opr MRCALNOINC).ModifierGroupCount ∧
      (∀ i : Nat, i < (IRPRET opr MRCALNOINC).ModifierGroupCount →
        (IRPRET opr MRCALNOINC).ModifierGroups[i]?
          = some (ModifierGroup.Initialize true [MRCALNOINC])) ∧
      (IRPRET opr MRCALNOINC).Is8 = true ∧
      (IRPRET opr MRCALNOINC).NeedCustomProcessing = false) := by
  refine ⟨⟨rfl, rfl, rfl, rfl, rfl, rfl⟩, ⟨rfl, rfl, rfl, rfl, rfl, rfl⟩, ?_, ?_, ?_⟩
  · intro opr MRBRAU
    refine ⟨rfl, rfl, rfl, Nat.one_pos, rfl, ?_, rfl, rfl, rfl, rfl⟩
    intro i hi
    have h0 : i = 0 := Nat.lt_one_iff.mp hi
    subst h0
    rfl
  · intro opr MRCALNOINC
    refine ⟨rfl, rfl, rfl, Nat.one_pos, rfl, ?_, rfl, rfl, rfl, rfl⟩
    intro i hi
    have h0 : i = 0 := Nat.lt_one_iff.mp hi
    subst h0
    rfl
  · intro opr MRCALNOINC
    refine ⟨rfl, rfl, rfl, Nat.one_pos, rfl, ?_, rfl, rfl⟩
    intro i hi
    have h0 : i = 0 := Nat.lt_one_iff.mp hi
    subst h0
    rfl

/-- Witness for C12: the only group of BRA, built with the sample rule `U`, is
at index 0 and is optional. -/
theorem C12_rule_table_shape_witness :
    (IRBRA acceptAll sampleU).ModifierGroups[0]? = some (ModifierGroup.Initialize true [sampleU]) ∧
    (IRBRA acceptAll sampleU).Operands = [acceptAll] :=
  ⟨(C12_rule_table_shape.2.2.1 acceptAll sampleU).2.2.2.2.2.1 0 Nat.one_pos,
   (C12_rule_table_shape.2.2.1 acceptAll sampleU).2.1⟩

/-- C15: the five execution-control rules have pairwise distinct base opcodes.
With character i of the binary string as bit i, EXIT = (0x00001DE7,
0x80000000), BRA = (0x00001DE7, 0x40000000), RET = (0x00001DE7, 0x90000000), CAL
= (0x00010007, 0x50000000) and PRET = (0x00008007, 0x78000000); EXIT, BRA and
RET share word0, and the five word1 values are pairwise different. -/
theorem C15_base_opcodes_distinct :
    (IREXIT.OpcodeWord0, IREXIT.OpcodeWord1) = (0x00001DE7, 0x80000000) ∧
    IRRET.OpcodeWord0 = 0x00001DE7 ∧ IRRET.OpcodeWord1 = 0x90000000 ∧
    (∀ (opr : OperandRule) (MRBRAU MRCALNOINC : ModifierRule),
      (IRBRA opr MRBRAU).OpcodeWord0 = 0x00001DE7 ∧
      (IRBRA opr MRBRAU).OpcodeWord1 = 0x40000000 ∧
      (IRCAL opr MRCALNOINC).OpcodeWord0 = 0x00010007 ∧
      (IRCAL opr MRCALNOINC).OpcodeWord1 = 0x50000000 ∧
      (IRPRET opr MRCALNOINC).OpcodeWord0 = 0x00008007 ∧
      (IRPRET opr MRCALNOINC).OpcodeWord1 = 0x78000000 ∧
      IREXIT.OpcodeWord0 = (IRBRA opr MRBRAU).OpcodeWord0 ∧
      IREXIT.OpcodeWord0 = IRRET.OpcodeWord0 ∧
      [IREXIT.OpcodeWord1, (IRBRA opr MRBRAU).OpcodeWord1, IRRET.OpcodeWord1,
        (IRCAL opr MRCALNOINC).OpcodeWord1, (IRPRET opr MRCALNOINC).OpcodeWord1].Nodup) ∧
    BinaryStringToOpcode8 "1110011110111000000000000000000000000000000000000000000000000010"
      = (0x00001DE7, 0x40000000) ∧
    BinaryStringToOpcode8 "1110011110111000000000000000000000000000000000000000000000001001"
      = (0x00001DE7, 0x90000000) ∧
    BinaryStringToOpcode8 "1110000000000000100000000000000000000000000000000000000000001010"
      = (0x00010007, 0x50000000) ∧
    BinaryStringToOpcode8 "1110000000000001000000000000000000000000000000000000000000011110"
      = (0x00008007, 0x78000000) := by
  have hexit : IREXIT.OpcodeWord0 = 0x00001DE7 ∧ IREXIT.OpcodeWord1 = 0x80000000 := by decide
  have hret : IRRET.OpcodeWord0 = 0x00001DE7 ∧ IRRET.OpcodeWord1 = 0x90000000 := by decide
  have hbra : BinaryStringToOpcode8
      "1110011110111000000000000000000000000000000000000000000000000010"
      = (0x00001DE7, 0x40000000) := by decide
  have hcal : BinaryStringToOpcode8
      "1110000000000000100000000000000000000000000000000000000000001010"
      = (0x00010007, 0x50000000) := by decide
  have hpret : BinaryStringToOpcode8
      "1110000000000001000000000000000000000000000000000000000000011110"
      = (0x00008007, 0x78000000) := by decide
  refine ⟨by rw [hexit.1, hexit.2], hret.1, hret.2, ?_, hbra, by decide, hcal, hpret⟩
  intro opr MRBRAU MRCALNOINC
  have b0 : (IRBRA opr MRBRAU).OpcodeWord0 = 0x00001DE7 := congrArg Prod.fst hbra
  have b1 : (IRBRA opr MRBRAU).OpcodeWord1 = 0x40000000 := congrArg Prod.snd hbra
  have c0 : (IRCAL opr MRCALNOINC).OpcodeWord0 = 0x00010007 := congrArg Prod.fst hcal
  have c1 : (IRCAL opr MRCALNOINC).OpcodeWord1 = 0x50000000 := congrArg Prod.snd hcal
  have p0 : (IRPRET opr MRCALNOINC).OpcodeWord0 = 0x00008007 := congrArg Prod.fst hpret
  have p1 : (IRPRET opr MRCALNOINC).OpcodeWord1 = 0x78000000 := congrArg Prod.snd hpret
  refine ⟨b0, b1, c0, c1, p0, p1, by rw [hexit.1, b0], by rw [hexit.1, hret.1], ?_⟩
  rw [hexit.2, b1, hret.2, c1, p1]
  decide

/-- C16: Instruction.Reset puts the instruction in a fixed fresh state except for
its modifiers. Afterwards InstructionString, Offset and LineNumber equal the
arguments, Components is empty, Is8 is true, both opcode words are 0 and
Predicated is false, whatever the state was before; Modifiers is exactly as it
was, so the modifier tokens of a previous instruction survive. Directive.Reset
sets DirectiveString and LineNumber and empties Parts. -/
theorem C16_reset_frame :
    (∀ (ins : Instruction) (instructionString : SubString) (offset lineNumber : Int),
      ins.Reset instructionString offset lineNumber =
        { InstructionString := instructionString
          LineNumber := lineNumber
          Modifiers := ins.Modifiers
          Components := []
          Is8 := true
          OpcodeWord0 := 0
          OpcodeWord1 := 0
          Offset := offset
          Predicated := false }) ∧
    (∀ (ins : Instruction) (instructionString : SubString) (offset lineNumber : Int),
      (ins.Reset instructionString offset lineNumber).Modifiers = ins.Modifiers) ∧
    (∀ (d : Directive) (directiveString : SubString) (lineNumber : Int),
      d.Reset directiveString lineNumber =
        { DirectiveString := directiveString, LineNumber := lineNumber, Parts := [] }) ∧
    (usedInstruction.Reset { Start := 30, Length := 5 } 32 5).Modifiers
      = [{ Start := 8, Length := 1 }] ∧
    (usedInstruction.Reset { Start := 30, Length := 5 } 32 5).Components = [] ∧
    (usedDirective.Reset { Start := 13, Length := 9 } 3).Parts = [] :=
  ⟨fun _ _ _ _ => rfl, fun _ _ _ _ => rfl, fun _ _ _ => rfl, rfl, rfl, rfl⟩

/-! ### Order of the prefix bit and the delegated rule; the empty operand -/

/-- The bit is set after `word |= 1<<shift`, for a shift inside the word. -/
theorem orWord0_testBit_self (g : Globals) (shift : Nat) (h : shift < 32) :
    (g.orWord0 shift).csCurrentInstruction.OpcodeWord0.testBit shift = true := by
  have hb := testBit_or_shift g.csCurrentInstruction.OpcodeWord0 shift shift h
  simpa [Globals.orWord0] using hb

/-- C13, counterexample: OPRLOP1 and OPRLOP2 on the operand `~R1`, with a
delegate that probes the modifier bit (9, respectively 8) when it is invoked and
then fails: the probe finds the bit not set (it throws 0), and word0 is still 0
after the failed call. -/
theorem C13_counterexample_lop_bit_after :
    ((OPRLOP1 (probingExternals 9)).Process (wholeSpan "~R1") (operandBuffer "~R1")).thrown
      = some 0 ∧
    ((OPRLOP1 (probingExternals 9)).Process (wholeSpan "~R1")
      (operandBuffer "~R1")).globals.csCurrentInstruction.OpcodeWord0 = 0 ∧
    ((OPRLOP2 (probingExternals 8)).Process (wholeSpan "~R1") (operandBuffer "~R1")).thrown
      = some 0 ∧
    ((OPRLOP2 (probingExternals 8)).Process (wholeSpan "~R1")
      (operandBuffer "~R1")).globals.csCurrentInstruction.OpcodeWord0 = 0 := by
  decide

/-- C13, amended: for OPRF2I and OPRI2F the prefix bit is set before the
underlying encoder runs: on an operand that begins with a minus sign (bit 8) or
a bar (bit 6) the delegate is invoked on globals in which the bit is already set
in OpcodeWord0, and the outcome of the call is the delegate's outcome on those
globals, also when the delegate fails. For OPRLOP1 and OPRLOP2 the bit is ORed
in after the delegate has returned normally: on an operand that begins with a
tilde the delegate is invoked on the unchanged globals, and when it fails the
outcome is its own outcome, with no bit ORed in. -/
theorem C13_prefix_bit_order :
    (∀ ext : Externals,
      (OPRLOP1 ext).Process = OperandRuleLOP.Process ext 9 ∧
      (OPRLOP2 ext).Process = OperandRuleLOP.Process ext 8 ∧
      (OPRF2I ext).Process = OperandRuleF2I.Process ext true ∧
      (OPRI2F ext).Process = OperandRuleF2I.Process ext false) ∧
    (∀ (g : Globals),
      (g.orWord0 8).csCurrentInstruction.OpcodeWord0.testBit 8 = true ∧
      (g.orWord0 6).csCurrentInstruction.OpcodeWord0.testBit 6 = true) ∧
    (∀ (ext : Externals) (F2I : Bool) (component : SubString) (g : Globals) (e : Int),
      component.get g.csSource 0 = '-' →
      (OperandRuleF2I.delegate ext F2I component.stripFirst (g.orWord0 8)).thrown = some e →
      OperandRuleF2I.Process ext F2I component g =
        OperandRuleF2I.delegate ext F2I component.stripFirst (g.orWord0 8)) ∧
    (∀ (ext : Externals) (F2I : Bool) (component : SubString) (g : Globals),
      component.get g.csSource 0 = '-' →
      (OperandRuleF2I.delegate ext F2I component.stripFirst (g.orWord0 8)).thrown = none →
      (OperandRuleF2I.Process ext F2I component g).thrown = none ∧
      (OperandRuleF2I.Process ext F2I component g).globals =
        (OperandRuleF2I.delegate ext F2I component.stripFirst (g.orWord0 8)).globals) ∧
    (∀ (ext : Externals) (F2I : Bool) (component : SubString) (g : Globals) (e : Int),
      component.get g.csSource 0 = '|' →
      (OperandRuleF2I.delegate ext F2I component.stripFirst (g.orWord0 6)).thrown = some e →
      OperandRuleF2I.Process ext F2I component g =
        OperandRuleF2I.delegate ext F2I component.stripFirst (g.orWord0 6)) ∧
    (∀ (ext : Externals) (F2I : Bool) (component : SubString) (g : Globals),
      component.get g.csSource 0 = '|' →
      (OperandRuleF2I.delegate ext F2I component.stripFirst (g.orWord0 6)).thrown = none →
      (OperandRuleF2I.Process ext F2I component g).thrown = none ∧
      (OperandRuleF2I.Process ext F2I component g).globals =
        (OperandRuleF2I.delegate ext F2I component.stripFirst (g.orWord0 6)).globals) ∧
    (∀ (ext : Externals) (ModShift : Nat) (component : SubString) (g : Globals) (e : Int),
      component.get g.csSource 0 = '~' → 1 ≤ component.stripFirst.Length →
      (OperandRuleLOP.delegate ext ModShift component.stripFirst g).thrown = some e →
      OperandRuleLOP.Process ext ModShift component g =
        OperandRuleLOP.delegate ext ModShift component.stripFirst g) ∧
    (∀ (ext : Externals) (ModShift : Nat) (component : SubString) (g : Globals),
      component.get g.csSource 0 = '~' → 1 ≤ component.stripFirst.Length →
      (OperandRuleLOP.delegate ext ModShift component.stripFirst g).thrown = none →
      (OperandRuleLOP.Process ext ModShift component g).thrown = none ∧
      (OperandRuleLOP.Process ext ModShift component g).globals =
        (OperandRuleLOP.delegate ext ModShift component.stripFirst g).globals.orWord0
          ModShift) ∧
    ((OPRF2I (probingExternals 8)).Process (wholeSpan "-R1") (operandBuffer "-R1")).thrown
      = some 1 ∧
    ((OPRI2F (probingExternals 6)).Process (wholeSpan "|R1|") (operandBuffer "|R1|")).thrown
      = some 1 ∧
    ((OPRF2I (probingExternals 8)).Process (wholeSpan "-R1")
      (operandBuffer "-R1")).globals.csCurrentInstruction.OpcodeWord0 = 2 ^ 8 := by
  refine ⟨fun _ => ⟨rfl, rfl, rfl, rfl⟩, ?_, ?_, ?_, ?_, ?_, ?_, ?_, by decide, by decide,
    by decide⟩
  · intro g
    exact ⟨orWord0_testBit_self g 8 (by decide), orWord0_testBit_self g 6 (by decide)⟩
  · intro ext F2I component g e hp hthrow
    have hg : OperandRuleF2I.prefixGlobals component g = g.orWord0 8 := by
      simp [OperandRuleF2I.prefixGlobals, hp]
    rw [OperandRuleF2I_Process_stripped ext F2I component g (Or.inl hp), hg, hthrow]
  · intro ext F2I component g hp hok
    have hg : OperandRuleF2I.prefixGlobals component g = g.orWord0 8 := by
      simp [OperandRuleF2I.prefixGlobals, hp]
    rw [OperandRuleF2I_Process_stripped ext F2I component g (Or.inl hp), hg, hok]
    exact ⟨hok, rfl⟩
  · intro ext F2I component g e hp hthrow
    have hg : OperandRuleF2I.prefixGlobals component g = g.orWord0 6 := by
      simp [OperandRuleF2I.prefixGlobals, hp]
    rw [OperandRuleF2I_Process_stripped ext F2I component g (Or.inr hp), hg, hthrow]
  · intro ext F2I component g hp hok
    have hg : OperandRuleF2I.prefixGlobals component g = g.orWord0 6 := by
      simp [OperandRuleF2I.prefixGlobals, hp]
    rw [OperandRuleF2I_Process_stripped ext F2I component g (Or.inr hp), hg, hok]
    exact ⟨hok, rfl⟩
  · intro ext ModShift component g e hp hlen hthrow
    exact OperandRuleLOP_Process_prefix_throw ext ModShift component g hp hlen e hthrow
  · intro ext ModShift component g hp hlen hok
    rw [OperandRuleLOP_Process_prefix_ok ext ModShift component g hp hlen hok]
    exact ⟨rfl, rfl⟩

/-- Witness for C13: OPRF2I on `-R1` with a rejecting delegate ends with the
delegate's outcome on the globals that already hold bit 8; OPRLOP1 on `~R1` with
a rejecting delegate ends with the delegate's outcome on the unchanged
globals. -/
theorem C13_prefix_bit_order_witness :
    OperandRuleF2I.Process rejectingExternals true (wholeSpan "-R1") (operandBuffer "-R1") =
      OperandRuleF2I.delegate rejectingExternals true (wholeSpan "-R1").stripFirst
        ((operandBuffer "-R1").orWord0 8) ∧
    OperandRuleLOP.Process rejectingExternals 9 (wholeSpan "~R1") (operandBuffer "~R1") =
      OperandRuleLOP.delegate rejectingExternals 9 (wholeSpan "~R1").stripFirst
        (operandBuffer "~R1") :=
  ⟨C13_prefix_bit_order.2.2.1 rejectingExternals true (wholeSpan "-R1") (operandBuffer "-R1")
      104 (by decide) rfl,
   C13_prefix_bit_order.2.2.2.2.2.2.1 rejectingExternals 9 (wholeSpan "~R1")
      (operandBuffer "~R1") 104 (by decide) (by decide) rfl⟩

/-- `OperandRuleLOP::Process` when the span after the first `if` has length
below 1: error 132, the delegate is not part of the outcome, the globals are
untouched. -/
theorem OperandRuleLOP_Process_short (ext : Externals) (ModShift : Nat)
    (component : SubString) (g : Globals)
    (hlen : (OperandRuleLOP.stripped g.csSource component).Length < 1) :
    OperandRuleLOP.Process ext ModShift component g =
      { thrown := some 132, component := OperandRuleLOP.stripped g.csSource component,
        globals := g } := by
  unfold OperandRuleLOP.stripped at hlen ⊢
  by_cases hp : component.get g.csSource 0 = '~'
  · simp only [hp, if_true] at hlen ⊢
    exact OperandRuleLOP_Process_prefix_empty ext ModShift component g hp hlen
  · simp only [hp, if_false] at hlen ⊢
    simp [OperandRuleLOP.Process, hp, hlen]

/-- `OperandRuleLOP::Process` when the span after the first `if` has length at
least 1: what it throws is what the delegate throws on that span. -/
theorem OperandRuleLOP_Process_long (ext : Externals) (ModShift : Nat)
    (component : SubString) (g : Globals)
    (hlen : 1 ≤ (OperandRuleLOP.stripped g.csSource component).Length) :
    (OperandRuleLOP.Process ext ModShift component g).thrown =
      (OperandRuleLOP.delegate ext ModShift (OperandRuleLOP.stripped g.csSource component)
        g).thrown := by
  unfold OperandRuleLOP.stripped at hlen ⊢
  by_cases hp : component.get g.csSource 0 = '~'
  · simp only [hp, if_true] at hlen ⊢
    cases hd : (OperandRuleLOP.delegate ext ModShift component.stripFirst g).thrown with
    | none => rw [OperandRuleLOP_Process_prefix_ok ext ModShift component g hp hlen hd]
    | some e => rw [OperandRuleLOP_Process_prefix_throw ext ModShift component g hp hlen e hd, hd]
  · simp only [hp, if_false] at hlen ⊢
    rw [OperandRuleLOP_Process_plain ext ModShift component g hp hlen]

/-- For a span in the buffer, the span after the first `if` of
`OperandRuleLOP::Process` is shorter than 1 exactly when the operand is empty or
is the single character `~`. -/
theorem OperandRuleLOP_stripped_short (src : List Char) (component : SubString)
    (h : component.InBuffer src) :
    (OperandRuleLOP.stripped src component).Length < 1 ↔
      (component.text src = [] ∨ component.text src = ['~']) := by
  have hlen := SubString.text_length src component h
  obtain ⟨h0, h1, h2⟩ := h
  rcases Int.lt_or_le 0 component.Length with hpos | hzero
  · have t0 : (component.text src)[0]? = some (component.get src 0) := by
      simpa using SubString.text_getElem? src component ⟨h0, h1, h2⟩ 0 (by simpa using hpos)
    have hne : component.text src ≠ [] := by
      intro hnil
      rw [hnil] at t0
      simp at t0
    by_cases hp : component.get src 0 = '~'
    · simp only [OperandRuleLOP.stripped, hp, if_true, SubString.stripFirst]
      constructor
      · intro hs
        have hl1 : (component.text src).length = 1 := by omega
        right
        match htext : component.text src, hl1, t0 with
        | [c], _, t0 =>
          simp at t0
          rw [t0, hp]
      · rintro (hnil | hone)
        · exact absurd hnil hne
        · rw [hone] at hlen
          simp at hlen
          omega
    · simp only [OperandRuleLOP.stripped, hp, if_false]
      constructor
      · intro hs
        omega
      · rintro (hnil | hone)
        · exact absurd hnil hne
        · rw [hone] at t0
          simp at t0
          exact absurd t0.symm hp
  · have hz : component.Length = 0 := by omega
    have hnil : component.text src = [] := by
      apply List.eq_nil_of_length_eq_zero
      rw [hlen, hz]
      rfl
    constructor
    · intro _
      exact Or.inl hnil
    · intro _
      unfold OperandRuleLOP.stripped SubString.stripFirst
      split
      · show component.Length - 1 < 1
        omega
      · omega

/-- C14: OperandRuleLOP.Process raises its empty-operand error 132 iff the
operand, after removing at most one leading tilde, has length less than 1, that
is, for an operand in the buffer, iff it is empty or is exactly the tilde. When
it raises this error the delegated encoder has not been called (the outcome is
the same whatever the delegates are) and the globals, OpcodeWord0 and
OpcodeWord1 among them, are exactly as before the call. When the operand has
length at least 1 after the strip, LOP raises nothing itself (what the call
throws is what the delegate throws), and it delegates to OPRMOVStyle when
ModShift is 8 (OPRLOP2) and to OPRRegister1 otherwise (OPRLOP1). -/
theorem C14_lop_empty_operand :
    (∀ (ext : Externals) (ModShift : Nat) (component : SubString) (g : Globals),
      (OperandRuleLOP.stripped g.csSource component).Length < 1 →
      OperandRuleLOP.Process ext ModShift component g =
        { thrown := some 132, component := OperandRuleLOP.stripped g.csSource component,
          globals := g }) ∧
    (∀ (ext : Externals) (ModShift : Nat) (component : SubString) (g : Globals),
      (OperandRuleLOP.stripped g.csSource component).Length < 1 →
      (OperandRuleLOP.Process ext ModShift component g).globals.csCurrentInstruction.OpcodeWord0
        = g.csCurrentInstruction.OpcodeWord0 ∧
      (OperandRuleLOP.Process ext ModShift component g).globals.csCurrentInstruction.OpcodeWord1
        = g.csCurrentInstruction.OpcodeWord1) ∧
    (∀ (ext : Externals) (ModShift : Nat) (component : SubString) (g : Globals),
      1 ≤ (OperandRuleLOP.stripped g.csSource component).Length →
      (OperandRuleLOP.Process ext ModShift component g).thrown =
        (OperandRuleLOP.delegate ext ModShift (OperandRuleLOP.stripped g.csSource component)
          g).thrown) ∧
    (∀ (ModShift : Nat) (component : SubString) (g : Globals),
      (∀ ext : Externals, (OperandRuleLOP.Process ext ModShift component g).thrown = some 132) ↔
        (OperandRuleLOP.stripped g.csSource component).Length < 1) ∧
    (∀ (src : List Char) (component : SubString), component.InBuffer src →
      ((OperandRuleLOP.stripped src component).Length < 1 ↔
        (component.text src = [] ∨ component.text src = ['~']))) ∧
    (∀ (ext : Externals) (component : SubString) (g : Globals),
      OperandRuleLOP.delegate ext 8 component g = ext.OPRMOVStyle.Process component g) ∧
    (∀ (ext : Externals) (ModShift : Nat) (component : SubString) (g : Globals),
      ModShift ≠ 8 →
      OperandRuleLOP.delegate ext ModShift component g = ext.OPRRegister1.Process component g) ∧
    (∀ ext : Externals,
      (OPRLOP2 ext).Process = OperandRuleLOP.Process ext 8 ∧
      (OPRLOP1 ext).Process = OperandRuleLOP.Process ext 9) := by
  refine ⟨OperandRuleLOP_Process_short, ?_, OperandRuleLOP_Process_long, ?_,
    OperandRuleLOP_stripped_short, fun _ _ _ => rfl, ?_, fun _ => ⟨rfl, rfl⟩⟩
  · intro ext ModShift component g hlen
    rw [OperandRuleLOP_Process_short ext ModShift component g hlen]
    exact ⟨rfl, rfl⟩
  · intro ModShift component g
    constructor
    · intro hall
      by_contra hnot
      have hlen : 1 ≤ (OperandRuleLOP.stripped g.csSource component).Length := by omega
      have h1 := hall sampleExternals
      rw [OperandRuleLOP_Process_long sampleExternals ModShift component g hlen] at h1
      unfold OperandRuleLOP.delegate at h1
      split at h1 <;> simp [sampleExternals, acceptAll] at h1
    · intro hlen ext
      rw [OperandRuleLOP_Process_short ext ModShift component g hlen]
  · intro ext ModShift component g hne
    simp [OperandRuleLOP.delegate, hne]

/-- Witness for C14: OPRLOP1 on the operand `~` raises 132 with the globals
untouched; on `~R1` it throws what OPRRegister1 throws on `R1`. -/
theorem C14_lop_empty_operand_witness :
    (OperandRuleLOP.stripped (operandBuffer "~").csSource (wholeSpan "~")).Length < 1 ∧
    OperandRuleLOP.Process rejectingExternals 9 (wholeSpan "~") (operandBuffer "~") =
      { thrown := some 132
        component := OperandRuleLOP.stripped (operandBuffer "~").csSource (wholeSpan "~")
        globals := operandBuffer "~" } ∧
    (OperandRuleLOP.Process rejectingExternals 9 (wholeSpan "~R1") (operandBuffer "~R1")).thrown =
      (OperandRuleLOP.delegate rejectingExternals 9
        (OperandRuleLOP.stripped (operandBuffer "~R1").csSource (wholeSpan "~R1"))
        (operandBuffer "~R1")).thrown :=
  ⟨by decide,
   C14_lop_empty_operand.1 rejectingExternals 9 (wholeSpan "~") (operandBuffer "~") (by decide),
   C14_lop_empty_operand.2.2.1 rejectingExternals 9 (wholeSpan "~R1") (operandBuffer "~R1")
     (by decide)⟩

/-! ### The two error tiers -/

/-- A code outside the list of `case`s gets the default message of
`hpExceptionHandler`. -/
theorem hpExceptionHandler_message_default (e : Int) (h : e ∉ hpExceptionHandler.codes) :
    hpExceptionHandler.message e = "No error message" := by
  simp only [hpExceptionHandler.codes, List.mem_cons, List.mem_singleton, not_or] at h
  obtain ⟨h0, h1, h3, h4, h5, h6, h7, h8, h9, h20, h50, h99, _⟩ := h
  simp [hpExceptionHandler.message, h0, h1, h3, h4, h5, h6, h7, h8, h9, h20, h50, h99]

/-- C17: the two error tiers use disjoint code spaces. hpExceptionHandler has a
dedicated message exactly for the codes 0, 1, 3, 4, 5, 6, 7, 8, 9, 20, 50 and 99,
pairwise distinct (5 is "Cannot find specified kernel", 50 is "Initialization
error. Repeating instruction indices."), and reports every other integer, 2 and
every code from 100 up among them, as "No error message"; hpErrorHandler has a
dedicated message exactly for 100..115; no integer has a dedicated message in
both; and hpExceptionHandler never changes csErrorPresent: it writes the message
of the code to the output, followed by the usage text when
csExceptionPrintUsage is set, and changes nothing else. -/
theorem C17_disjoint_error_tiers :
    (∀ e : Int, e ∈ hpExceptionHandler.codes →
      hpExceptionHandler.message e ≠ "No error message") ∧
    (∀ e : Int, e ∉ hpExceptionHandler.codes →
      hpExceptionHandler.message e = "No error message") ∧
    (∀ e1 e2 : Int, e1 ∈ hpExceptionHandler.codes → e2 ∈ hpExceptionHandler.codes → e1 ≠ e2 →
      hpExceptionHandler.message e1 ≠ hpExceptionHandler.message e2) ∧
    hpExceptionHandler.message 5 = "Cannot find specified kernel" ∧
    hpExceptionHandler.message 50 = "Initialization error. Repeating instruction indices." ∧
    hpExceptionHandler.message 2 = "No error message" ∧
    (∀ e : Int, 100 ≤ e → hpExceptionHandler.message e = "No error message") ∧
    (∀ e : Int, hpErrorHandler.message e ≠ "Unknown Error" ↔ (100 ≤ e ∧ e ≤ 115)) ∧
    (∀ e : Int, hpExceptionHandler.message e = "No error message" ∨
      hpErrorHandler.message e = "Unknown Error") ∧
    (∀ (usage : List String) (e : Int) (g : Globals),
      (hpExceptionHandler usage e g).csErrorPresent = g.csErrorPresent) ∧
    (∀ (usage : List String) (e : Int) (g : Globals),
      hpExceptionHandler usage e g =
        { g with cout := g.cout ++ [hpExceptionHandler.message e] ++
            (if g.csExceptionPrintUsage then usage else []) }) ∧
    (∀ (usage : List String) (e : Int) (g : Globals),
      hpExceptionHandler.message e ∈ (hpExceptionHandler usage e g).cout) := by
  have hlow : ∀ e : Int, (e < 100 ∨ 115 < e) → hpErrorHandler.message e = "Unknown Error" := by
    intro e h
    unfold hpErrorHandler.message
    repeat (first | rw [if_neg (by omega)] | rfl)
  have hded : ∀ e : Int, 100 ≤ e → e ≤ 115 → hpErrorHandler.message e ≠ "Unknown Error" := by
    intro e h hu
    interval_cases e <;> decide
  have hhigh : ∀ e : Int, 100 ≤ e → hpExceptionHandler.message e = "No error message" := by
    intro e h
    apply hpExceptionHandler_message_default
    simp only [hpExceptionHandler.codes, List.mem_cons, List.mem_singleton, not_or]
    refine ⟨?_, ?_, ?_, ?_, ?_, ?_, ?_, ?_, ?_, ?_, ?_, ?_, ?_⟩ <;> first | omega | simp
  have hform : ∀ (usage : List String) (e : Int) (g : Globals),
      hpExceptionHandler usage e g =
        { g with cout := g.cout ++ [hpExceptionHandler.message e] ++
            (if g.csExceptionPrintUsage then usage else []) } := by
    intro usage e g
    cases hflag : g.csExceptionPrintUsage <;> simp [hpExceptionHandler, hpUsage, hflag]
  refine ⟨?_, hpExceptionHandler_message_default, ?_, by decide, by decide, by decide, hhigh, ?_,
    ?_, ?_, hform, ?_⟩
  · intro e he
    simp only [hpExceptionHandler.codes, List.mem_cons, List.mem_singleton] at he
    rcases he with rfl | rfl | rfl | rfl | rfl | rfl | rfl | rfl | rfl | rfl | rfl | rfl | h
    all_goals first | decide | simp at h
  · intro e1 e2 h1 h2 hne
    simp only [hpExceptionHandler.codes, List.mem_cons, List.mem_singleton] at h1 h2
    rcases h1 with rfl | rfl | rfl | rfl | rfl | rfl | rfl | rfl | rfl | rfl | rfl | rfl | h1 <;>
    rcases h2 with rfl | rfl | rfl | rfl | rfl | rfl | rfl | rfl | rfl | rfl | rfl | rfl | h2
    all_goals first | exact absurd rfl hne | decide | simp at h1 | simp at h2
  · intro e
    constructor
    · intro hne
      by_contra hout
      exact hne (hlow e (by omega))
    · intro h
      exact hded e h.1 h.2
  · intro e
    rcases Int.lt_or_le e 100 with h | h
    · exact Or.inr (hlow e (Or.inl h))
    · exact Or.inl (hhigh e h)
  · intro usage e g
    rw [hform]
  · intro usage e g
    rw [hform]
    simp

/-- Witness for C17: code 5 has a dedicated exception message and 132 the
default one; reporting code 5 with `csExceptionPrintUsage` set writes the
message and the usage text and leaves `csErrorPresent` as it was. -/
theorem C17_disjoint_error_tiers_witness :
    hpExceptionHandler.message 5 ≠ "No error message" ∧
    hpExceptionHandler.message 132 = "No error message" ∧
    (hpExceptionHandler ["Usage: asfermi sourcefile"] 5
      { operandBuffer "EXIT;" with csExceptionPrintUsage := true, csErrorPresent := true
      }).csErrorPresent = true ∧
    (hpExceptionHandler ["Usage: asfermi sourcefile"] 5
      { operandBuffer "EXIT;" with csExceptionPrintUsage := true, csErrorPresent := true }).cout
      = ["Cannot find specified kernel", "Usage: asfermi sourcefile"] :=
  ⟨C17_disjoint_error_tiers.1 5 (by decide),
   C17_disjoint_error_tiers.2.2.2.2.2.2.1 132 (by decide),
   C17_disjoint_error_tiers.2.2.2.2.2.2.2.2.2.1 ["Usage: asfermi sourcefile"] 5
     { operandBuffer "EXIT;" with csExceptionPrintUsage := true, csErrorPresent := true },
   by decide⟩

/-! ### Label resolution -/

/-- The parsing pass over a line followed by more lines. -/
theorem parseLines_cons (a : Assembly) (line : SourceLine) (lines : List SourceLine) :
    parseLines a (line :: lines) = parseLines (parseLine a line) lines := rfl

/-- The parsing pass over two runs of lines. -/
theorem parseLines_append (a : Assembly) (front back : List SourceLine) :
    parseLines a (front ++ back) = parseLines (parseLines a front) back := by
  simp [parseLines, List.foldl_append]

/-- A line advances the cursor by its size. -/
theorem parseLine_cursor (a : Assembly) (line : SourceLine) :
    (parseLine a line).cursor = a.cursor + line.size := by
  cases line with
  | labelDefinition name =>
    simp only [parseLine, SourceLine.size]
    split <;> simp
  | instructionLine encoded target => rfl

/-- A line adds its instruction, if it is one, to the output sequence. -/
theorem parseLine_length (a : Assembly) (line : SourceLine) :
    (parseLine a line).instructions.length = a.instructions.length + instructionCount [line] := by
  cases line with
  | labelDefinition name =>
    simp only [parseLine, instructionCount]
    split <;> simp
  | instructionLine encoded target => simp [parseLine, instructionCount]

/-- A line leaves the instructions already in the output sequence as they
are. -/
theorem parseLine_getElem? (a : Assembly) (line : SourceLine) (i : Nat) (x : Instruction)
    (h : a.instructions[i]? = some x) : (parseLine a line).instructions[i]? = some x := by
  cases line with
  | labelDefinition name =>
    simp only [parseLine]
    split <;> exact h
  | instructionLine encoded target =>
    have hi : i < a.instructions.length := (List.getElem?_eq_some.mp h).1
    simp only [parseLine]
    rw [List.getElem?_append_left hi]
    exact h

/-- A line leaves the pending requests in the list. -/
theorem parseLine_requests (a : Assembly) (line : SourceLine) (r : LabelRequest)
    (h : r ∈ a.requests) : r ∈ (parseLine a line).requests := by
  cases line with
  | labelDefinition name =>
    simp only [parseLine]
    split <;> exact h
  | instructionLine encoded target =>
    cases target with
    | none => exact h
    | some name => exact List.mem_append_left _ h

/-- A line leaves a label of the table findable. -/
theorem parseLine_findLabel_some (a : Assembly) (line : SourceLine) (name : String) (l : Label)
    (h : findLabel a.labels name = some l) : findLabel (parseLine a line).labels name = some l := by
  cases line with
  | labelDefinition other =>
    simp only [parseLine]
    split
    · exact h
    · simp only [findLabel, List.find?_append] at h ⊢
      rw [h]
      rfl
  | instructionLine encoded target => exact h

/-- A line that does not define `name` leaves it undefined. -/
theorem parseLine_findLabel_none (a : Assembly) (line : SourceLine) (name : String)
    (h : findLabel a.labels name = none) (hline : line ≠ SourceLine.labelDefinition name) :
    findLabel (parseLine a line).labels name = none := by
  cases line with
  | labelDefinition other =>
    have hne : other ≠ name := fun heq => hline (by rw [heq])
    simp only [parseLine]
    split
    · exact h
    · simp only [findLabel, List.find?_append] at h ⊢
      rw [h]
      simp [hne]
  | instructionLine encoded target => exact h

/-- A line keeps the requests consistent with the output sequence. -/
theorem parseLine_wellFormed (a : Assembly) (line : SourceLine) (h : a.WellFormed) :
    (parseLine a line).WellFormed := by
  obtain ⟨hnodup, hlt⟩ := h
  cases line with
  | labelDefinition name =>
    simp only [parseLine]
    split <;> exact ⟨hnodup, hlt⟩
  | instructionLine encoded target =>
    cases target with
    | none =>
      refine ⟨hnodup, ?_⟩
      intro r hr
      have := hlt r hr
      simp only [parseLine, List.length_append, List.length_singleton]
      omega
    | some name =>
      constructor
      · simp only [parseLine, List.map_append, List.map_cons, List.map_nil]
        rw [List.nodup_append]
        refine ⟨hnodup, List.nodup_singleton _, ?_⟩
        intro i hi hi2
        rw [List.mem_singleton] at hi2
        obtain ⟨r, hr, hri⟩ := List.mem_map.mp hi
        have := hlt r hr
        omega
      · intro r hr
        simp only [parseLine, List.mem_append, List.mem_singleton] at hr
        simp only [parseLine, List.length_append, List.length_singleton]
        rcases hr with hr | hr
        · have := hlt r hr
          omega
        · rw [hr]
          exact Nat.lt_succ_self _

/-- The parsing pass advances the cursor by the bytes of the lines. -/
theorem parseLines_cursor (lines : List SourceLine) :
    ∀ a : Assembly, (parseLines a lines).cursor = a.cursor + byteSize lines := by
  induction lines with
  | nil => intro a; simp [parseLines, byteSize]
  | cons line lines ih =>
    intro a
    rw [parseLines_cons, ih, parseLine_cursor, byteSize]
    omega

/-- The parsing pass adds one instruction per instruction line. -/
theorem parseLines_length (lines : List SourceLine) :
    ∀ a : Assembly,
      (parseLines a lines).instructions.length = a.instructions.length + instructionCount lines := by
  induction lines with
  | nil => intro a; simp [parseLines, instructionCount]
  | cons line lines ih =>
    intro a
    rw [parseLines_cons, ih, parseLine_length]
    cases line with
    | labelDefinition name => simp [instructionCount]
    | instructionLine encoded target =>
      simp only [instructionCount]
      omega

/-- The parsing pass leaves the instructions already in the output sequence as
they are. -/
theorem parseLines_getElem? (lines : List SourceLine) :
    ∀ (a : Assembly) (i : Nat) (x : Instruction), a.instructions[i]? = some x →
      (parseLines a lines).instructions[i]? = some x := by
  induction lines with
  | nil => intro a i x h; exact h
  | cons line lines ih =>
    intro a i x h
    rw [parseLines_cons]
    exact ih _ i x (parseLine_getElem? a line i x h)

/-- The parsing pass leaves the pending requests in the list. -/
theorem parseLines_requests (lines : List SourceLine) :
    ∀ (a : Assembly) (r : LabelRequest), r ∈ a.requests → r ∈ (parseLines a lines).requests := by
  induction lines with
  | nil => intro a r h; exact h
  | cons line lines ih =>
    intro a r h
    rw [parseLines_cons]
    exact ih _ r (parseLine_requests a line r h)

/-- The parsing pass leaves a label of the table findable. -/
theorem parseLines_findLabel_some (lines : List SourceLine) :
    ∀ (a : Assembly) (name : String) (l : Label), findLabel a.labels name = some l →
      findLabel (parseLines a lines).labels name = some l := by
  induction lines with
  | nil => intro a name l h; exact h
  | cons line lines ih =>
    intro a name l h
    rw [parseLines_cons]
    exact ih _ name l (parseLine_findLabel_some a line name l h)

/-- Lines that do not define `name` leave it undefined. -/
theorem parseLines_findLabel_none (lines : List SourceLine) :
    ∀ (a : Assembly) (name : String), findLabel a.labels name = none →
      SourceLine.labelDefinition name ∉ lines →
      findLabel (parseLines a lines).labels name = none := by
  induction lines with
  | nil => intro a name h _; exact h
  | cons line lines ih =>
    intro a name h hnot
    rw [parseLines_cons]
    have hline : line ≠ SourceLine.labelDefinition name :=
      fun heq => hnot (by rw [heq]; exact List.mem_cons_self _ _)
    exact ih _ name (parseLine_findLabel_none a line name h hline)
      (fun hmem => hnot (List.mem_cons_of_mem _ hmem))

/-- The parsing pass keeps the requests consistent with the output sequence. -/
theorem parseLines_wellFormed (lines : List SourceLine) :
    ∀ a : Assembly, a.WellFormed → (parseLines a lines).WellFormed := by
  induction lines with
  | nil => intro a h; exact h
  | cons line lines ih =>
    intro a h
    rw [parseLines_cons]
    exact ih _ (parseLine_wellFormed a line h)

/-- Resolving a request leaves the label table as it is. -/
theorem resolveRequest_labels (field : TargetField) (a : Assembly) (r : LabelRequest) :
    (resolveRequest field a r).labels = a.labels := by
  unfold resolveRequest
  split <;> rfl

/-- Resolving a request leaves every other instruction as it is. -/
theorem resolveRequest_getElem?_ne (field : TargetField) (a : Assembly) (r : LabelRequest)
    (i : Nat) (h : r.RelatedInstruction ≠ i) :
    (resolveRequest field a r).instructions[i]? = a.instructions[i]? := by
  unfold resolveRequest
  split
  · simp only [List.getElem?_set_ne h]
  · rfl

/-- Resolving a request whose label is in the table writes the label's offset
into the field of the requesting instruction. -/
theorem resolveRequest_getElem?_self (field : TargetField) (a : Assembly) (r : LabelRequest)
    (l : Label) (x : Instruction)
    (hl : findLabel a.labels r.RequestedLabelName = some l)
    (hx : a.instructions[r.RelatedInstruction]? = some x) :
    (resolveRequest field a r).instructions[r.RelatedInstruction]?
      = some (field.write l.Offset.toNat x) := by
  have hi : r.RelatedInstruction < a.instructions.length := (List.getElem?_eq_some.mp hx).1
  simp only [resolveRequest, hl, hx]
  exact List.getElem?_set_self hi

/-- Requests against other instructions leave instruction `i` as it is. -/
theorem resolveAll_getElem?_ne (field : TargetField) (rs : List LabelRequest) :
    ∀ (a : Assembly) (i : Nat), (∀ r ∈ rs, r.RelatedInstruction ≠ i) →
      (rs.foldl (resolveRequest field) a).instructions[i]? = a.instructions[i]? := by
  induction rs with
  | nil => intro a i _; rfl
  | cons r rs ih =>
    intro a i h
    rw [List.foldl_cons, ih _ i (fun r1 h1 => h r1 (List.mem_cons_of_mem _ h1))]
    exact resolveRequest_getElem?_ne field a r i (h r (List.mem_cons_self _ _))

/-- A run of requests, no two against the same instruction: the request `r`
among them, whose label is in the table, ends with the label's offset written
into the field of its instruction. -/
theorem resolveAll_getElem?_self (field : TargetField) (rs : List LabelRequest) :
    ∀ (a : Assembly) (r : LabelRequest) (l : Label) (x : Instruction),
      (rs.map (fun r => r.RelatedInstruction)).Nodup → r ∈ rs →
      findLabel a.labels r.RequestedLabelName = some l →
      a.instructions[r.RelatedInstruction]? = some x →
      (rs.foldl (resolveRequest field) a).instructions[r.RelatedInstruction]?
        = some (field.write l.Offset.toNat x) := by
  induction rs with
  | nil => intro a r l x _ hr; simp at hr
  | cons r1 rs ih =>
    intro a r l x hnodup hr hl hx
    rw [List.map_cons, List.nodup_cons] at hnodup
    rw [List.foldl_cons]
    rcases List.mem_cons.mp hr with heq | hmem
    · subst heq
      rw [resolveAll_getElem?_ne field rs _ r.RelatedInstruction]
      · exact resolveRequest_getElem?_self field a r l x hl hx
      · intro r2 h2 heq2
        exact hnodup.1 (List.mem_map.mpr ⟨r2, h2, heq2⟩)
    · have hne : r1.RelatedInstruction ≠ r.RelatedInstruction := by
        intro heq
        exact hnodup.1 (List.mem_map.mpr ⟨r, hmem, heq.symm⟩)
      apply ih _ r l x hnodup.2 hmem
      · rw [resolveRequest_labels]
        exact hl
      · rw [resolveRequest_getElem?_ne field a r1 _ hne]
        exact hx

/-- The resolver writes the offset of the label into the target field of every
instruction that requests a label of the table, wherever the label is defined
in the source. -/
theorem assemble_target (field : TargetField) (hfield : field.Holds)
    (front back : List SourceLine) (encoded : Instruction) (name : String) (l : Label)
    (hl : findLabel (parseLines Assembly.start
      (front ++ SourceLine.instructionLine encoded (some name) :: back)).labels name = some l)
    (hfit : l.Offset.toNat < 2 ^ 24) :
    (assemble field (front ++ SourceLine.instructionLine encoded (some name) :: back)).target
      field (instructionCount front) = some l.Offset.toNat := by
  have hstart : Assembly.start.WellFormed := ⟨List.nodup_nil, fun r hr => by cases hr⟩
  have hcount : (parseLines Assembly.start front).instructions.length = instructionCount front := by
    rw [parseLines_length]
    simp [Assembly.start]
  have hwf := parseLines_wellFormed
    (front ++ SourceLine.instructionLine encoded (some name) :: back) Assembly.start hstart
  rw [parseLines_append, parseLines_cons] at hwf hl
  have hreq : ({ RelatedInstruction := instructionCount front, RequestedLabelName := name }
      : LabelRequest) ∈ (parseLines (parseLine (parseLines Assembly.start front)
        (SourceLine.instructionLine encoded (some name))) back).requests := by
    apply parseLines_requests
    simp only [parseLine, hcount]
    exact List.mem_append_right _ (List.mem_singleton_self _)
  have hins : (parseLines (parseLine (parseLines Assembly.start front)
      (SourceLine.instructionLine encoded (some name))) back).instructions[instructionCount front]?
      = some { encoded with Offset := (parseLines Assembly.start front).cursor } := by
    apply parseLines_getElem?
    simp only [parseLine]
    rw [← hcount]
    exact List.getElem?_concat_length _ _
  unfold assemble Assembly.target resolveLabels
  rw [parseLines_append, parseLines_cons]
  rw [resolveAll_getElem?_self field _ _ _ l _ hwf.1 hreq hl hins]
  simp only [Option.map_some']
  rw [hfield _ _ hfit]

/-- The label table after the parsing pass: a label defined once, after lines
that do not define it, has the byte offset of the instruction stream at its
definition. -/
theorem parseLines_label (front back : List SourceLine) (name : String)
    (hfresh : SourceLine.labelDefinition name ∉ front) :
    findLabel (parseLines Assembly.start (front ++ SourceLine.labelDefinition name :: back)).labels
      name = some { Name := name, Offset := byteSize front } := by
  rw [parseLines_append, parseLines_cons]
  apply parseLines_findLabel_some
  have hnone : findLabel (parseLines Assembly.start front).labels name = none :=
    parseLines_findLabel_none front Assembly.start name rfl hfresh
  have hcursor : (parseLines Assembly.start front).cursor = byteSize front := by
    rw [parseLines_cursor]
    simp [Assembly.start]
  simp only [parseLine, hnone, hcursor]
  unfold findLabel at hnone ⊢
  rw [List.find?_append, hnone]
  simp

/-- The resolver leaves the label table as it is. -/
theorem resolveAll_labels (field : TargetField) (rs : List LabelRequest) :
    ∀ a : Assembly, (rs.foldl (resolveRequest field) a).labels = a.labels := by
  induction rs with
  | nil => intro a; rfl
  | cons r rs ih =>
    intro a
    rw [List.foldl_cons, ih, resolveRequest_labels]

/-- The instruction stream of some lines has no negative size. -/
theorem byteSize_nonneg (lines : List SourceLine) : 0 ≤ byteSize lines := by
  induction lines with
  | nil => exact Int.le_refl 0
  | cons line lines ih =>
    have hline : 0 ≤ line.size := by
      cases line with
      | labelDefinition name => exact Int.le_refl 0
      | instructionLine encoded target =>
        simp only [SourceLine.size]
        split <;> decide
    simp only [byteSize]
    omega

/-- The sample field holds the 24-bit values written into it. -/
theorem sampleField_holds : sampleField.Holds := by
  intro v ins hv
  show maskThenOr ins.OpcodeWord1 (0xFF <<< 24) v % 2 ^ 24 = v
  apply Nat.eq_of_testBit_eq
  intro i
  unfold maskThenOr
  rw [Nat.testBit_mod_two_pow, Nat.testBit_mod_two_pow, Nat.testBit_or, Nat.testBit_and,
    Nat.testBit_shiftLeft]
  by_cases hi : i < 24
  · have h32 : i < 32 := by omega
    have h24 : ¬ i ≥ 24 := by omega
    simp [hi, h32, h24]
  · have hle : 2 ^ 24 ≤ 2 ^ i := Nat.pow_le_pow_right (by decide) (by omega)
    have hbit : v.testBit i = false := Nat.testBit_lt_two_pow (Nat.lt_of_lt_of_le hv hle)
    simp [hi, hbit]

/-- The resolver writes the offset of the label into the target field of every
instruction that requests a label of the table, from whatever state the parsing
pass started. -/
theorem resolveLabels_instruction (field : TargetField) (a0 : Assembly) (hwf0 : a0.WellFormed)
    (front back : List SourceLine) (encoded : Instruction) (name : String) (l : Label)
    (hl : findLabel (parseLines a0
      (front ++ SourceLine.instructionLine encoded (some name) :: back)).labels name = some l) :
    (resolveLabels field (parseLines a0
      (front ++ SourceLine.instructionLine encoded (some name) :: back))).instructions[
        a0.instructions.length + instructionCount front]?
      = some (field.write l.Offset.toNat
          { encoded with Offset := a0.cursor + byteSize front }) := by
  have hcount : (parseLines a0 front).instructions.length
      = a0.instructions.length + instructionCount front := parseLines_length front a0
  have hcursor : (parseLines a0 front).cursor = a0.cursor + byteSize front :=
    parseLines_cursor front a0
  have hwf := parseLines_wellFormed
    (front ++ SourceLine.instructionLine encoded (some name) :: back) a0 hwf0
  rw [parseLines_append, parseLines_cons] at hwf hl
  have hreq : (⟨a0.instructions.length + instructionCount front, name⟩ : LabelRequest) ∈
      (parseLines (parseLine (parseLines a0 front)
        (SourceLine.instructionLine encoded (some name))) back).requests := by
    apply parseLines_requests
    simp only [parseLine, hcount]
    exact List.mem_append_right _ (List.mem_singleton_self _)
  have hins : (parseLines (parseLine (parseLines a0 front)
      (SourceLine.instructionLine encoded (some name))) back).instructions[
        a0.instructions.length + instructionCount front]?
      = some { encoded with Offset := a0.cursor + byteSize front } := by
    apply parseLines_getElem?
    simp only [parseLine]
    rw [← hcount, ← hcursor]
    exact List.getElem?_concat_length _ _
  unfold resolveLabels
  rw [parseLines_append, parseLines_cons]
  exact resolveAll_getElem?_self field _ _ _ l _ hwf.1 hreq hl hins

/-- A line keeps two states with the same instruction stream so. -/
theorem parseLine_sameStream (a b : Assembly) (line : SourceLine) (h : a.SameStream b) :
    (parseLine a line).SameStream (parseLine b line) := by
  obtain ⟨hc, hi, hr⟩ := h
  cases line with
  | labelDefinition name =>
    simp only [parseLine]
    split <;> split <;> exact ⟨hc, hi, hr⟩
  | instructionLine encoded target =>
    simp only [parseLine, Assembly.SameStream, hc, hi, hr]
    exact ⟨trivial, trivial, trivial⟩

/-- A label statement leaves the instruction stream as it is. -/
theorem parseLine_label_sameStream (a : Assembly) (name : String) :
    (parseLine a (SourceLine.labelDefinition name)).SameStream a := by
  simp only [parseLine]
  split <;> exact ⟨rfl, rfl, rfl⟩

/-- The parsing pass keeps two states with the same instruction stream so. -/
theorem parseLines_sameStream (lines : List SourceLine) :
    ∀ a b : Assembly, a.SameStream b → (parseLines a lines).SameStream (parseLines b lines) := by
  induction lines with
  | nil => intro a b h; exact h
  | cons line lines ih =>
    intro a b h
    rw [parseLines_cons, parseLines_cons]
    exact ih _ _ (parseLine_sameStream a b line h)

/-- The instruction stream of a source does not depend on where a label
statement stands, nor on the labels known before the first line. -/
theorem parseLines_without_label (front back : List SourceLine) (name : String) (offset : Int) :
    (parseLines Assembly.start (front ++ SourceLine.labelDefinition name :: back)).SameStream
      (parseLines (Assembly.knowing name offset) (front ++ back)) := by
  rw [parseLines_append, parseLines_append, parseLines_cons]
  apply parseLines_sameStream
  have h1 : (parseLine (parseLines Assembly.start front)
      (SourceLine.labelDefinition name)).SameStream (parseLines Assembly.start front) :=
    parseLine_label_sameStream _ name
  have h2 : (parseLines Assembly.start front).SameStream
      (parseLines (Assembly.knowing name offset) front) :=
    parseLines_sameStream front _ _ ⟨rfl, rfl, rfl⟩
  exact ⟨h1.1.trans h2.1, h1.2.1.trans h2.2.1, h1.2.2.trans h2.2.2⟩

/-- C11: forward label references resolve to the label's byte offset. For every
source in which an instruction names a label that is defined later in the source
(and not before the reference), after the resolution pass the label table gives
the label the byte offset of the instruction stream at its definition, and the
resolver has written that offset into the target field of the instruction: for
a field that holds 24-bit values and an offset that fits, the field reads back
as the label's Offset. This is the value the instruction would get if the label
had been defined before the reference, with the same instruction stream: when
the label is already in the table, with that Offset, before the first line is
parsed, the parsing pass gives the same instruction stream and the same
requests, and the resolver leaves the same instruction. A reference that
follows the definition of its label is resolved by the same lookup to that
label's Offset. For `BRA LOOP;` followed by `LOOP: EXIT;` the field is 8. -/
theorem C11_label_resolution :
    (∀ (field : TargetField) (pre mid post : List SourceLine) (encoded : Instruction)
        (name : String),
      SourceLine.labelDefinition name ∉ pre → SourceLine.labelDefinition name ∉ mid →
      findLabel (assemble field (pre ++ SourceLine.instructionLine encoded (some name) ::
          (mid ++ SourceLine.labelDefinition name :: post))).labels name
        = some { Name := name
                 Offset :=
                   byteSize (pre ++ SourceLine.instructionLine encoded (some name) :: mid) } ∧
      (assemble field (pre ++ SourceLine.instructionLine encoded (some name) ::
          (mid ++ SourceLine.labelDefinition name :: post))).instructions[instructionCount pre]?
        = some (field.write
            (byteSize (pre ++ SourceLine.instructionLine encoded (some name) :: mid)).toNat
            { encoded with Offset := byteSize pre })) ∧
    (∀ (field : TargetField) (pre mid post : List SourceLine) (encoded : Instruction)
        (name : String),
      field.Holds →
      SourceLine.labelDefinition name ∉ pre → SourceLine.labelDefinition name ∉ mid →
      (byteSize (pre ++ SourceLine.instructionLine encoded (some name) :: mid)).toNat < 2 ^ 24 →
      (assemble field (pre ++ SourceLine.instructionLine encoded (some name) ::
          (mid ++ SourceLine.labelDefinition name :: post))).target field (instructionCount pre)
        = some (byteSize
            (pre ++ SourceLine.instructionLine encoded (some name) :: mid)).toNat) ∧
    (∀ (field : TargetField) (pre mid post : List SourceLine) (encoded : Instruction)
        (name : String),
      SourceLine.labelDefinition name ∉ pre → SourceLine.labelDefinition name ∉ mid →
      (resolveLabels field (parseLines
          (Assembly.knowing name
            (byteSize (pre ++ SourceLine.instructionLine encoded (some name) :: mid)))
          (pre ++ SourceLine.instructionLine encoded (some name) ::
            (mid ++ post)))).instructions[instructionCount pre]?
        = (assemble field (pre ++ SourceLine.instructionLine encoded (some name) ::
            (mid ++ SourceLine.labelDefinition name :: post))).instructions[
              instructionCount pre]? ∧
      (parseLines Assembly.start (pre ++ SourceLine.instructionLine encoded (some name) ::
          (mid ++ SourceLine.labelDefinition name :: post))).SameStream
        (parseLines
          (Assembly.knowing name
            (byteSize (pre ++ SourceLine.instructionLine encoded (some name) :: mid)))
          (pre ++ SourceLine.instructionLine encoded (some name) :: (mid ++ post)))) ∧
    (∀ (field : TargetField) (pre mid post : List SourceLine) (encoded : Instruction)
        (name : String),
      SourceLine.labelDefinition name ∉ pre →
      (assemble field ((pre ++ SourceLine.labelDefinition name :: mid) ++
          SourceLine.instructionLine encoded (some name) :: post)).instructions[
            instructionCount (pre ++ SourceLine.labelDefinition name :: mid)]?
        = some (field.write (byteSize pre).toNat
            { encoded with
              Offset := byteSize (pre ++ SourceLine.labelDefinition name :: mid) })) ∧
    (∀ (field : TargetField) (front back : List SourceLine) (encoded : Instruction)
        (name : String) (l : Label),
      findLabel (parseLines Assembly.start
        (front ++ SourceLine.instructionLine encoded (some name) :: back)).labels name = some l →
      (assemble field (front ++ SourceLine.instructionLine encoded (some name) ::
          back)).instructions[instructionCount front]?
        = some (field.write l.Offset.toNat { encoded with Offset := byteSize front })) ∧
    (∀ lines : List SourceLine, 0 ≤ byteSize lines) ∧
    sampleField.Holds ∧
    (assemble sampleField forwardSource).target sampleField 0 = some 8 ∧
    findLabel (assemble sampleField forwardSource).labels "LOOP"
      = some { Name := "LOOP", Offset := 8 } ∧
    (assemble sampleField forwardSource).csErrorPresent = false ∧
    (resolveLabels sampleField
      (parseLines (Assembly.knowing "LOOP" 8) forwardSourceUnlabelled)).target sampleField 0
      = some 8 := by
  have hstart : Assembly.start.WellFormed := ⟨List.nodup_nil, fun r hr => by cases hr⟩
  have hgeneral : ∀ (field : TargetField) (front back : List SourceLine) (encoded : Instruction)
      (name : String) (l : Label),
      findLabel (parseLines Assembly.start
        (front ++ SourceLine.instructionLine encoded (some name) :: back)).labels name = some l →
      (assemble field (front ++ SourceLine.instructionLine encoded (some name) ::
          back)).instructions[instructionCount front]?
        = some (field.write l.Offset.toNat { encoded with Offset := byteSize front }) := by
    intro field front back encoded name l hl
    have h := resolveLabels_instruction field Assembly.start hstart front back encoded name l hl
    simpa [Assembly.start, assemble] using h
  have hforward : ∀ (pre mid post : List SourceLine) (encoded : Instruction) (name : String),
      SourceLine.labelDefinition name ∉ pre → SourceLine.labelDefinition name ∉ mid →
      findLabel (parseLines Assembly.start
        (pre ++ SourceLine.instructionLine encoded (some name) ::
          (mid ++ SourceLine.labelDefinition name :: post))).labels name
        = some { Name := name
                 Offset :=
                   byteSize (pre ++ SourceLine.instructionLine encoded (some name) :: mid) } := by
    intro pre mid post encoded name hpre hmid
    have hfresh : SourceLine.labelDefinition name ∉
        pre ++ SourceLine.instructionLine encoded (some name) :: mid := by
      intro hmem
      rcases List.mem_append.mp hmem with h | h
      · exact hpre h
      · rcases List.mem_cons.mp h with h | h
        · cases h
        · exact hmid h
    have hshape : pre ++ SourceLine.instructionLine encoded (some name) ::
        (mid ++ SourceLine.labelDefinition name :: post) =
        (pre ++ SourceLine.instructionLine encoded (some name) :: mid) ++
          SourceLine.labelDefinition name :: post := by simp
    rw [hshape]
    exact parseLines_label _ post name hfresh
  refine ⟨?_, ?_, ?_, ?_, hgeneral, byteSize_nonneg, sampleField_holds, by decide, by decide,
    by decide, by decide⟩
  · intro field pre mid post encoded name hpre hmid
    have hlabel := hforward pre mid post encoded name hpre hmid
    constructor
    · unfold assemble resolveLabels
      rw [resolveAll_labels]
      exact hlabel
    · exact hgeneral field pre _ encoded name _ hlabel
  · intro field pre mid post encoded name hfield hpre hmid hfit
    have hlabel := hforward pre mid post encoded name hpre hmid
    exact assemble_target field hfield pre _ encoded name _ hlabel hfit
  · intro field pre mid post encoded name hpre hmid
    have hlabel := hforward pre mid post encoded name hpre hmid
    constructor
    · rw [hgeneral field pre _ encoded name _ hlabel]
      have hknown : findLabel (parseLines
          (Assembly.knowing name
            (byteSize (pre ++ SourceLine.instructionLine encoded (some name) :: mid)))
          (pre ++ SourceLine.instructionLine encoded (some name) :: (mid ++ post))).labels name
          = some { Name := name
                   Offset :=
                     byteSize (pre ++ SourceLine.instructionLine encoded (some name) :: mid) } := by
        apply parseLines_findLabel_some
        simp [Assembly.knowing, findLabel]
      have h := resolveLabels_instruction field
        (Assembly.knowing name
          (byteSize (pre ++ SourceLine.instructionLine encoded (some name) :: mid)))
        ⟨List.nodup_nil, fun r hr => by cases hr⟩ pre (mid ++ post) encoded name _ hknown
      simpa [Assembly.knowing, Assembly.start] using h
    · have hshape : pre ++ SourceLine.instructionLine encoded (some name) ::
          (mid ++ SourceLine.labelDefinition name :: post) =
          (pre ++ SourceLine.instructionLine encoded (some name) :: mid) ++
            SourceLine.labelDefinition name :: post := by simp
      have hshape2 : pre ++ SourceLine.instructionLine encoded (some name) :: (mid ++ post) =
          (pre ++ SourceLine.instructionLine encoded (some name) :: mid) ++ post := by simp
      rw [hshape, hshape2]
      exact parseLines_without_label _ post name _
  · intro field pre mid post encoded name hpre
    have hshape : (pre ++ SourceLine.labelDefinition name :: mid) ++
        SourceLine.instructionLine encoded (some name) :: post =
        pre ++ SourceLine.labelDefinition name ::
          (mid ++ SourceLine.instructionLine encoded (some name) :: post) := by simp
    have hlabel := parseLines_label pre
      (mid ++ SourceLine.instructionLine encoded (some name) :: post) name hpre
    rw [← hshape] at hlabel
    exact hgeneral field (pre ++ SourceLine.labelDefinition name :: mid) post encoded name _ hlabel

/-- Witness for C11: the source `BRA LOOP;` followed by `LOOP: EXIT;`, with the
sample field: the label table gives `LOOP` the offset 8 and the target field of
the branch holds 8. -/
theorem C11_label_resolution_witness :
    sampleField.Holds ∧
    findLabel (assemble sampleField ([] ++ braLoop ::
        ([] ++ SourceLine.labelDefinition "LOOP" :: [exitInstruction]))).labels "LOOP"
      = some { Name := "LOOP", Offset := byteSize ([] ++ braLoop :: []) } ∧
    (assemble sampleField ([] ++ braLoop ::
        ([] ++ SourceLine.labelDefinition "LOOP" :: [exitInstruction]))).target sampleField
        (instructionCount [])
      = some (byteSize ([] ++ braLoop :: [])).toNat ∧
    (byteSize ([] ++ braLoop :: [])).toNat = 8 :=
  ⟨sampleField_holds,
   (C11_label_resolution.1 sampleField [] [] [exitInstruction]
      { blankInstruction with OpcodeWord0 := 0x00001DE7, OpcodeWord1 := 0x40000000 } "LOOP"
      (by simp) (by simp)).1,
   C11_label_resolution.2.1 sampleField [] [] [exitInstruction]
      { blankInstruction with OpcodeWord0 := 0x00001DE7, OpcodeWord1 := 0x40000000 } "LOOP"
      sampleField_holds (by simp) (by simp) (by decide),
   by decide⟩

end Asfermi
